import Mathlib

/-!
Verification of the MSVC-symbol demangler (`src/lib.rs`) against its
natural-language specification.

The parser is shallowly embedded: the mangled input is a list of bytes
(`Nat`), the parser state carries the input together with the two
backreference tables, and every parser function is translated from the
Rust source.  Rust's `i32` arithmetic is modelled by `Int` together with
an explicit two's-complement wrap (`wrap32`) at the spots where the
source can overflow.  The `panic!` in `ParserState::get` is modelled by a
dedicated `POut.abort` outcome, distinct from the ordinary error channel
`POut.err` (Rust's `Err`).  The recursive-descent knot is driven by an
explicit fuel parameter (structural recursion on `Nat`); `POut.outOfFuel`
marks fuel exhaustion and is an artefact of the embedding, never of the
program.  Byte constants appear as decimal ASCII codes; each use site
carries a comment with the literal from the source.
-/

namespace MsvcDemangle

/-! ### Storage classes and function classes (bitflags, `u32` bit masks) -/

def scCONST : Nat := 1
def scVOLATILE : Nat := 2
def scFAR : Nat := 4
def scHUGE : Nat := 8
def scUNALIGNED : Nat := 16
def scRESTRICT : Nat := 32
def scEmpty : Nat := 0

def fcPUBLIC : Nat := 1
def fcPROTECTED : Nat := 2
def fcPRIVATE : Nat := 4
def fcGLOBAL : Nat := 8
def fcSTATIC : Nat := 16
def fcVIRTUAL : Nat := 32
def fcFAR : Nat := 64
def fcTHUNK : Nat := 128

/-- `FuncClass::contains` on the bitflag representation. -/
def flagContains (fc flag : Nat) : Bool := fc &&& flag != 0

inductive CallingConv where
  | Cdecl
  | Pascal
  | Thiscall
  | Stdcall
  | Fastcall
  | Regcall
deriving DecidableEq, BEq

inductive DemangleFlags where
  | LessWhitespace
  | LotsOfWhitespace
deriving DecidableEq, BEq

/-! ### The AST (`Name`, `NameSequence`, `Params`, `Symbol`, `Type`, `ParseResult`)

`Type` is called `Typ` to avoid the Lean keyword.  Identifier bytes
(`&'a [u8]`) are lists of byte values. -/

mutual

inductive Name where
  | Operator (op : String)
  | NonTemplate (id : List Nat)
  | Template (base : Name) (ps : Params)
  | Discriminator (val : Int)
  | ParsedName (pr : ParseResult)
  | AnonymousNamespace

inductive Params where
  | mk (types : List Typ)

inductive NameSequence where
  | mk (names : List Name)

inductive Symbol where
  | mk (name : Name) (scope : NameSequence)

inductive Typ where
  | None
  | MemberFunction (fc : Nat) (cc : CallingConv) (ps : Params) (sc : Nat) (ret : Typ)
  | MemberFunctionPointer (nm : Name) (ps : Params) (sc : Nat) (ret : Typ)
  | NonMemberFunction (cc : CallingConv) (ps : Params) (sc : Nat) (ret : Typ)
  | CXXVBTable (seq : NameSequence) (sc : Nat)
  | CXXVFTable (seq : NameSequence) (sc : Nat)
  | TemplateParameterWithIndex (n : Int)
  | ThreadSafeStaticGuard (n : Int)
  | Constant (n : Int)
  | Ptr (inner : Typ) (sc : Nat)
  | Ref (inner : Typ) (sc : Nat)
  | RValueRef (inner : Typ) (sc : Nat)
  | Array (len : Int) (inner : Typ) (sc : Nat)
  | Struct (sym : Symbol) (sc : Nat)
  | Union (sym : Symbol) (sc : Nat)
  | Class (sym : Symbol) (sc : Nat)
  | Enum (sym : Symbol) (sc : Nat)
  | Void (sc : Nat)
  | Bool (sc : Nat)
  | Char (sc : Nat)
  | Schar (sc : Nat)
  | Uchar (sc : Nat)
  | Short (sc : Nat)
  | Ushort (sc : Nat)
  | Int (sc : Nat)
  | Uint (sc : Nat)
  | Long (sc : Nat)
  | Ulong (sc : Nat)
  | Int64 (sc : Nat)
  | Uint64 (sc : Nat)
  | Wchar (sc : Nat)
  | Char16 (sc : Nat)
  | Char32 (sc : Nat)
  | Float (sc : Nat)
  | Double (sc : Nat)
  | Ldouble (sc : Nat)
  | VarArgs
  | EmptyParameterPack
  | Nullptr

inductive ParseResult where
  | mk (symbol : Symbol) (symbolType : Typ)

end

/-! ### Structural equality (the derived `PartialEq` of the source)

The backreference tables are deduplicated with `Vec::contains`, which
compares with the `#[derive(PartialEq)]` instances: plain structural
equality.  `structEq*` is that derived equality, written out. -/

mutual

def structEqName : Name → Name → Bool
  | .Operator a, .Operator b => a == b
  | .NonTemplate a, .NonTemplate b => a == b
  | .Template n1 p1, .Template n2 p2 => structEqName n1 n2 && structEqParams p1 p2
  | .Discriminator a, .Discriminator b => a == b
  | .ParsedName r1, .ParsedName r2 => structEqPR r1 r2
  | .AnonymousNamespace, .AnonymousNamespace => true
  | _, _ => false
termination_by structural n => n

def structEqParams : Params → Params → Bool
  | .mk t1, .mk t2 => structEqTypList t1 t2
termination_by structural p => p

def structEqTypList : List Typ → List Typ → Bool
  | [], [] => true
  | a :: l1, b :: l2 => structEqTyp a b && structEqTypList l1 l2
  | _, _ => false
termination_by structural l => l

def structEqNameList : List Name → List Name → Bool
  | [], [] => true
  | a :: l1, b :: l2 => structEqName a b && structEqNameList l1 l2
  | _, _ => false
termination_by structural l => l

def structEqSeq : NameSequence → NameSequence → Bool
  | .mk l1, .mk l2 => structEqNameList l1 l2
termination_by structural q => q

def structEqSym : Symbol → Symbol → Bool
  | .mk n1 s1, .mk n2 s2 => structEqName n1 n2 && structEqSeq s1 s2
termination_by structural y => y

def structEqTyp : Typ → Typ → Bool
  | .None, .None => true
  | .MemberFunction a1 b1 c1 d1 e1, .MemberFunction a2 b2 c2 d2 e2 =>
      a1 == a2 && b1 == b2 && structEqParams c1 c2 && d1 == d2 && structEqTyp e1 e2
  | .MemberFunctionPointer a1 b1 c1 d1, .MemberFunctionPointer a2 b2 c2 d2 =>
      structEqName a1 a2 && structEqParams b1 b2 && c1 == c2 && structEqTyp d1 d2
  | .NonMemberFunction a1 b1 c1 d1, .NonMemberFunction a2 b2 c2 d2 =>
      a1 == a2 && structEqParams b1 b2 && c1 == c2 && structEqTyp d1 d2
  | .CXXVBTable a1 b1, .CXXVBTable a2 b2 => structEqSeq a1 a2 && b1 == b2
  | .CXXVFTable a1 b1, .CXXVFTable a2 b2 => structEqSeq a1 a2 && b1 == b2
  | .TemplateParameterWithIndex a, .TemplateParameterWithIndex b => a == b
  | .ThreadSafeStaticGuard a, .ThreadSafeStaticGuard b => a == b
  | .Constant a, .Constant b => a == b
  | .Ptr a1 b1, .Ptr a2 b2 => structEqTyp a1 a2 && b1 == b2
  | .Ref a1 b1, .Ref a2 b2 => structEqTyp a1 a2 && b1 == b2
  | .RValueRef a1 b1, .RValueRef a2 b2 => structEqTyp a1 a2 && b1 == b2
  | .Array a1 b1 c1, .Array a2 b2 c2 => a1 == a2 && structEqTyp b1 b2 && c1 == c2
  | .Struct a1 b1, .Struct a2 b2 => structEqSym a1 a2 && b1 == b2
  | .Union a1 b1, .Union a2 b2 => structEqSym a1 a2 && b1 == b2
  | .Class a1 b1, .Class a2 b2 => structEqSym a1 a2 && b1 == b2
  | .Enum a1 b1, .Enum a2 b2 => structEqSym a1 a2 && b1 == b2
  | .Void a, .Void b => a == b
  | .Bool a, .Bool b => a == b
  | .Char a, .Char b => a == b
  | .Schar a, .Schar b => a == b
  | .Uchar a, .Uchar b => a == b
  | .Short a, .Short b => a == b
  | .Ushort a, .Ushort b => a == b
  | .Int a, .Int b => a == b
  | .Uint a, .Uint b => a == b
  | .Long a, .Long b => a == b
  | .Ulong a, .Ulong b => a == b
  | .Int64 a, .Int64 b => a == b
  | .Uint64 a, .Uint64 b => a == b
  | .Wchar a, .Wchar b => a == b
  | .Char16 a, .Char16 b => a == b
  | .Char32 a, .Char32 b => a == b
  | .Float a, .Float b => a == b
  | .Double a, .Double b => a == b
  | .Ldouble a, .Ldouble b => a == b
  | .VarArgs, .VarArgs => true
  | .EmptyParameterPack, .EmptyParameterPack => true
  | .Nullptr, .Nullptr => true
  | _, _ => false
termination_by structural t => t

def structEqPR : ParseResult → ParseResult → Bool
  | .mk s1 t1, .mk s2 t2 => structEqSym s1 s2 && structEqTyp t1 t2
termination_by structural r => r

end

/-! ### Parser state and outcomes -/

/-- `ParserState`: the remaining input plus the two backreference tables
(`memorized_names`, `memorized_types`). -/
structure PState where
  input : List Nat
  names : List Name
  types : List Typ

inductive POut (α : Type) where
  | ok (a : α) (s : PState)
  | err (msg : String)
  | abort (msg : String)
  | outOfFuel

abbrev PM (α : Type) := PState → POut α

def pureP {α : Type} (a : α) : PM α := fun s => .ok a s

def errP {α : Type} (msg : String) : PM α := fun _ => .err msg

def bindP {α β : Type} (m : PM α) (f : α → PM β) : PM β := fun s =>
  match m s with
  | .ok a s' => f a s'
  | .err e => .err e
  | .abort e => .abort e
  | .outOfFuel => .outOfFuel

/-- `if let Ok(c) = m { f c } else { g }`: run `m`; on `Ok` continue with
`f`, on `Err` fall back to `g` on the untouched state.  A panic (`abort`)
escapes. -/
def ifOkP {α β : Type} (m : PM α) (f : α → PM β) (g : PM β) : PM β := fun s =>
  match m s with
  | .ok a s' => f a s'
  | .err _ => g s
  | .abort e => .abort e
  | .outOfFuel => .outOfFuel

/-! ### Cursor primitives -/

/-- `peek`: next byte without consuming. -/
def peekS (s : PState) : Option Nat := s.input.head?

/-- `get`: consume and return the next byte.  On exhausted input the
source executes `panic!("Unexpected end of input")` (the commented-out
`Err` next to it is dead code), modelled by `POut.abort`. -/
def getP : PM Nat := fun s =>
  match s.input with
  | first :: rest => .ok first { s with input := rest }
  | [] => .abort "Unexpected end of input"

/-- `consume(s)`: consume a fixed byte literal if it is a prefix. -/
def consumeP (lit : List Nat) : PM Bool := fun s =>
  if lit.isPrefixOf s.input then .ok true { s with input := s.input.drop lit.length }
  else .ok false s

/-- `expect(s)`: like `consume` but an error when absent. -/
def expectP (lit : List Nat) : PM Unit :=
  bindP (consumeP lit) fun b => if b then pureP () else errP "expected literal"

/-- `consume_digit`: consume one ASCII decimal digit if present. -/
def isDigitByte (b : Nat) : Bool := 48 ≤ b && b ≤ 57

def consume_digitP : PM (Option Nat) := fun s =>
  match s.input with
  | first :: rest =>
      if isDigitByte first then .ok (some (first - 48)) { s with input := rest }
      else .ok none s
  | [] => .ok none s

/-- `consume_hex_digit` (Rust `char::is_digit(16)`: `0-9`, `a-f`, `A-F`). -/
def isHexDigitByte (b : Nat) : Bool :=
  (48 ≤ b && b ≤ 57) || (65 ≤ b && b ≤ 70) || (97 ≤ b && b ≤ 102)

def consume_hex_digitP : PM Bool := fun s =>
  match s.input with
  | first :: rest =>
      if isHexDigitByte first then .ok true { s with input := rest }
      else .ok false s
  | [] => .ok false s

/-- `while self.consume_hex_digit() {}` as an input transformation. -/
def skipHexDigits : List Nat → List Nat
  | [] => []
  | b :: rest => if isHexDigitByte b then skipHexDigits rest else b :: rest

/-! ### `read_number` -/

/-- Two's-complement wrap to `i32`: the release-mode semantics of the
source's `i32` shift/add/negate. -/
def wrap32 (n : Int) : Int := (n + 2147483648) % 4294967296 - 2147483648

/-- The hex loop of `read_number`: a run of `A`–`P` (65–80, nibbles 0–15)
accumulated most-significant-first into an `i32`, terminated by `@` (64). -/
def readNumLoop (ret : Int) : List Nat → Except String (Int × List Nat)
  | [] => .error "bad number"
  | c :: rest =>
    if c = 64 then .ok (ret, rest)
    else if 65 ≤ c ∧ c ≤ 80 then readNumLoop (wrap32 (16 * ret + ((c : Int) - 65))) rest
    else .error "bad number"

/-- `read_number`: optional `?` (63) negates; a single decimal digit `d`
encodes `d+1`; otherwise the hex run. -/
def read_numberP : PM Int :=
  bindP (consumeP [63]) fun neg =>
  bindP consume_digitP fun dig =>
  match dig with
  | some d => pureP (if neg then -((d : Int) + 1) else (d : Int) + 1)
  | none => fun s =>
      match readNumLoop 0 s.input with
      | .ok (ret, rest) => .ok (if neg then wrap32 (-ret) else ret) { s with input := rest }
      | .error e => .err e

/-! ### `read_string` -/

/-- Split the input at the first `@` (64): the bytes before it and the
bytes after it. -/
def splitAtTerm : List Nat → Option (List Nat × List Nat)
  | [] => none
  | b :: rest =>
    if b = 64 then some ([], rest)
    else match splitAtTerm rest with
      | some (pre, post) => some (b :: pre, post)
      | none => none

/-- `read_string`: read until (and including) the next `@`. -/
def read_stringP : PM (List Nat) := fun s =>
  match splitAtTerm s.input with
  | some (pre, post) => .ok pre { s with input := post }
  | none => .err "read_string: missing terminator"

/-! ### Memorization (`memorize_name` / `memorize_type`) -/

def containsName (l : List Name) (n : Name) : Bool := l.any fun m => structEqName m n

def containsTyp (l : List Typ) (t : Typ) : Bool := l.any fun m => structEqTyp m t

/-- `memorize_name`: push iff fewer than 10 entries and not already
present (structural equality). -/
def memorize_name (n : Name) (s : PState) : PState :=
  if s.names.length < 10 && !(containsName s.names n) then { s with names := s.names ++ [n] }
  else s

def memorize_type (t : Typ) (s : PState) : PState :=
  if s.types.length < 10 && !(containsTyp s.types t) then { s with types := s.types ++ [t] }
  else s

/-! ### Flat readers (no recursion into the knot) -/

/-- `read_operator_name`: the two-level operator table. -/
def read_operator_nameP : PM String :=
  bindP getP fun c =>
  match c with
  | 48 => pureP "ctor"
  | 49 => pureP "dtor"
  | 50 => pureP "operator new"
  | 51 => pureP "operator delete"
  | 52 => pureP "operator="
  | 53 => pureP "operator>>"
  | 54 => pureP "operator<<"
  | 55 => pureP "operator!"
  | 56 => pureP "operator=="
  | 57 => pureP "operator!="
  | 65 => pureP "operator[]"
  | 66 => pureP "operatorcast"
  | 67 => pureP "operator->"
  | 68 => pureP "operator*"
  | 69 => pureP "operator++"
  | 70 => pureP "operator--"
  | 71 => pureP "operator-"
  | 72 => pureP "operator+"
  | 73 => pureP "operator&"
  | 74 => pureP "operator->*"
  | 75 => pureP "operator/"
  | 76 => pureP "operator%"
  | 77 => pureP "operator<"
  | 78 => pureP "operator<="
  | 79 => pureP "operator>"
  | 80 => pureP "operator>="
  | 81 => pureP "operator,"
  | 82 => pureP "operator()"
  | 83 => pureP "operator~"
  | 84 => pureP "operator^"
  | 85 => pureP "operator|"
  | 86 => pureP "operator&&"
  | 87 => pureP "operator||"
  | 88 => pureP "operator*="
  | 89 => pureP "operator+="
  | 90 => pureP "operator-="
  | 95 =>
    bindP getP fun c2 =>
    match c2 with
    | 48 => pureP "operator/="
    | 49 => pureP "operator%="
    | 50 => pureP "operator>>="
    | 51 => pureP "operator<<="
    | 52 => pureP "operator&="
    | 53 => pureP "operator|="
    | 54 => pureP "operator^="
    | 55 => pureP "`vftable'"
    | 56 => pureP "`vbtable'"
    | 57 => pureP "`vcall'"
    | 65 => pureP "`typeof'"
    | 66 => pureP "`local static guard'"
    | 68 => pureP "`vbase destructor'"
    | 69 => pureP "`vector deleting destructor'"
    | 70 => pureP "`default constructor closure'"
    | 71 => pureP "`scalar deleting destructor'"
    | 72 => pureP "`vector constructor iterator'"
    | 73 => pureP "`vector destructor iterator'"
    | 74 => pureP "`vector vbase constructor iterator'"
    | 75 => pureP "`virtual displacement map'"
    | 76 => pureP "`eh vector constructor iterator'"
    | 77 => pureP "`eh vector destructor iterator'"
    | 78 => pureP "`eh vector vbase constructor iterator'"
    | 79 => pureP "`copy constructor closure'"
    | 83 => pureP "`local vftable'"
    | 84 => pureP "`local vftable constructor closure'"
    | 85 => pureP "operator new[]"
    | 86 => pureP "operator delete[]"
    | 88 => pureP "`placement delete closure'"
    | 89 => pureP "`placement delete[] closure'"
    | 95 =>
      bindP (consumeP [76]) fun l =>
      if l then pureP " co_await"
      else
        bindP (consumeP [75]) fun k =>
        if k then pureP " CXXLiteralOperatorName"
        else errP "unknown operator name"
    | _ => errP "unknown operator name"
  | _ => errP "unknown operator name"

def read_operatorP : PM Name :=
  bindP read_operator_nameP fun op => pureP (Name.Operator op)

/-- The thunk helper inside `read_func_class`: parse (and drop) the
adjustment, add the `THUNK` flag. -/
def readThunkP (fc : Nat) : PM Nat :=
  bindP read_numberP fun _ => pureP (fc ||| fcTHUNK)

/-- `read_func_class` applied to the already-consumed discriminator byte. -/
def read_func_classP (c : Nat) : PM Nat :=
  match c with
  | 65 => pureP fcPRIVATE
  | 66 => pureP (fcPRIVATE ||| fcFAR)
  | 67 => pureP (fcPRIVATE ||| fcSTATIC)
  | 68 => pureP (fcPRIVATE ||| fcSTATIC)
  | 69 => pureP (fcPRIVATE ||| fcVIRTUAL)
  | 70 => pureP (fcPRIVATE ||| fcVIRTUAL)
  | 71 => readThunkP (fcPRIVATE ||| fcVIRTUAL)
  | 72 => readThunkP (fcPRIVATE ||| fcVIRTUAL ||| fcFAR)
  | 73 => pureP fcPROTECTED
  | 74 => pureP (fcPROTECTED ||| fcFAR)
  | 75 => pureP (fcPROTECTED ||| fcSTATIC)
  | 76 => pureP (fcPROTECTED ||| fcSTATIC ||| fcFAR)
  | 77 => pureP (fcPROTECTED ||| fcVIRTUAL)
  | 78 => pureP (fcPROTECTED ||| fcVIRTUAL ||| fcFAR)
  | 79 => readThunkP (fcPROTECTED ||| fcVIRTUAL)
  | 80 => readThunkP (fcPROTECTED ||| fcVIRTUAL ||| fcFAR)
  | 81 => pureP fcPUBLIC
  | 82 => pureP (fcPUBLIC ||| fcFAR)
  | 83 => pureP (fcPUBLIC ||| fcSTATIC)
  | 84 => pureP (fcPUBLIC ||| fcSTATIC ||| fcFAR)
  | 85 => pureP (fcPUBLIC ||| fcVIRTUAL)
  | 86 => pureP (fcPUBLIC ||| fcVIRTUAL ||| fcFAR)
  | 87 => readThunkP (fcPUBLIC ||| fcVIRTUAL)
  | 88 => readThunkP (fcPUBLIC ||| fcVIRTUAL ||| fcFAR)
  | 89 => pureP fcGLOBAL
  | 90 => pureP (fcGLOBAL ||| fcFAR)
  | _ => errP "unknown func class"

/-- `read_qualifier`: peek; on `A`/`B`/`C`/`D` (65–68) consume and return
the storage class; on any other byte (or end of input) return the empty
storage class without consuming — no error path. -/
def read_qualifierP : PM Nat := fun s =>
  match s.input with
  | c :: rest =>
    if c = 65 then .ok scEmpty { s with input := rest }
    else if c = 66 then .ok scCONST { s with input := rest }
    else if c = 67 then .ok scVOLATILE { s with input := rest }
    else if c = 68 then .ok (scCONST ||| scVOLATILE) { s with input := rest }
    else .ok scEmpty s
  | [] => .ok scEmpty s

/-- `read_calling_conv`. -/
def read_calling_convP : PM CallingConv :=
  bindP getP fun c =>
  match c with
  | 65 => pureP CallingConv.Cdecl
  | 66 => pureP CallingConv.Cdecl
  | 67 => pureP CallingConv.Pascal
  | 69 => pureP CallingConv.Thiscall
  | 71 => pureP CallingConv.Stdcall
  | 73 => pureP CallingConv.Fastcall
  | _ => errP "unknown calling conv"

/-- `read_storage_class`: peek-based, tolerant like `read_qualifier`. -/
def read_storage_classP : PM Nat := fun s =>
  match s.input with
  | c :: rest =>
    if c = 65 then .ok scEmpty { s with input := rest }
    else if c = 66 then .ok scCONST { s with input := rest }
    else if c = 67 then .ok scVOLATILE { s with input := rest }
    else if c = 68 then .ok (scCONST ||| scVOLATILE) { s with input := rest }
    else if c = 69 then .ok scFAR { s with input := rest }
    else if c = 70 then .ok (scCONST ||| scFAR) { s with input := rest }
    else if c = 71 then .ok (scVOLATILE ||| scFAR) { s with input := rest }
    else if c = 72 then .ok (scCONST ||| scVOLATILE ||| scFAR) { s with input := rest }
    else .ok scEmpty s
  | [] => .ok scEmpty s

/-- `read_storage_class_for_return`: only after a `?`; unknown bytes are
an error here. -/
def read_storage_class_for_returnP : PM Nat :=
  bindP (consumeP [63]) fun q =>
  if !q then pureP scEmpty
  else
    bindP getP fun c =>
    match c with
    | 65 => pureP scEmpty
    | 66 => pureP scCONST
    | 67 => pureP scVOLATILE
    | 68 => pureP (scCONST ||| scVOLATILE)
    | _ => errP "unknown storage class"

/-- The `$TSS` digit loop of `parse`: accumulate decimal digits until
`@` (64); a missing digit is an error. -/
def tssLoopAux (g : Int) : List Nat → Except String (Int × List Nat)
  | [] => .error "missing digit"
  | b :: rest =>
    if b = 64 then .ok (g, rest)
    else if isDigitByte b then tssLoopAux (wrap32 (10 * g + ((b : Int) - 48))) rest
    else .error "missing digit"

/-! ### The recursive-descent knot

All functions take a fuel parameter first and recurse with one unit
less at every (mutual) call and loop iteration; fuel `0` yields
`POut.outOfFuel`. -/

mutual

/-- `ParserState::parse`: the top-level entry.  Requires a leading `?`;
then either the `$`-forms (`$TSS…` guard, or a bare template name), or a
qualified symbol followed by the one-byte type discriminator.  The
discriminator is fetched with `get`, which panics at end of input, so the
`Type::None` fallback of the source's `if let Ok(c)` is dead code. -/
def parseM : Nat → PM ParseResult
  | 0 => fun _ => .outOfFuel
  | fuel + 1 =>
    bindP (consumeP [63]) fun q =>                    -- b"?"
    if !q then errP "does not start with b'?'"
    else
    bindP (consumeP [36]) fun dollar =>               -- b"$"
    if dollar then
      bindP (consumeP [84, 83, 83]) fun tss =>        -- b"TSS"
      if tss then
        bindP consume_digitP fun dig =>
        match dig with
        | none => errP "missing digit"
        | some d => fun s =>
            match tssLoopAux ((d : Int)) s.input with
            | .error e => .err e
            | .ok (guardNum, rest) =>
              (bindP (read_nested_nameM fuel) fun name =>
               bindP (read_scopeM fuel) fun scope =>
               bindP (expectP [52, 72, 65]) fun _ =>  -- b"4HA"
               pureP (ParseResult.mk (Symbol.mk name scope) (Typ.ThreadSafeStaticGuard guardNum)))
              { s with input := rest }
      else
        bindP (read_template_nameM fuel) fun name =>
        pureP (ParseResult.mk (Symbol.mk name (NameSequence.mk [])) Typ.None)
    else
      bindP (read_nameM fuel true) fun symbol =>
      ifOkP getP
        (fun c =>
          if 48 ≤ c ∧ c ≤ 53 then                     -- b'0'...b'5': a variable
            bindP (read_var_typeM fuel scEmpty) fun t =>
            pureP (ParseResult.mk symbol t)
          else if c = 54 then                         -- b'6': vftable
            bindP read_qualifierP fun ac =>
            bindP (read_scopeM fuel) fun scope =>
            pureP (ParseResult.mk symbol (Typ.CXXVFTable scope ac))
          else if c = 55 then                         -- b'7': vbtable
            bindP read_qualifierP fun ac =>
            bindP (read_scopeM fuel) fun scope =>
            pureP (ParseResult.mk symbol (Typ.CXXVBTable scope ac))
          else if c = 89 then                         -- b'Y': non-member function
            bindP read_calling_convP fun cc =>
            bindP read_storage_class_for_returnP fun sc =>
            bindP (read_var_typeM fuel sc) fun ret =>
            bindP (read_func_paramsM fuel) fun ps =>
            pureP (ParseResult.mk symbol (Typ.NonMemberFunction cc ps scEmpty ret))
          else                                        -- member function
            bindP (read_func_classP c) fun fc =>
            bindP (if flagContains fc fcSTATIC then pureP scEmpty
                   else
                     -- `let _is_64bit_ptr = self.expect(b"E");` (result ignored)
                     bindP (consumeP [69]) fun _ => read_qualifierP) fun ac =>
            bindP read_calling_convP fun cc =>
            bindP read_storage_class_for_returnP fun scr =>
            bindP (read_func_return_typeM fuel scr) fun ret =>
            bindP (read_func_paramsM fuel) fun ps =>
            pureP (ParseResult.mk symbol (Typ.MemberFunction fc cc ps ac ret)))
        (pureP (ParseResult.mk symbol Typ.None))
termination_by structural fuel => fuel

/-- `read_nested_name`: backreference digit, `??` (a full nested parse on
the same state), `?$` template, `?A…@` anonymous namespace, `?<number>`
discriminator, or a terminated identifier (memorized). -/
def read_nested_nameM : Nat → PM Name
  | 0 => fun _ => .outOfFuel
  | fuel + 1 =>
    bindP consume_digitP fun dig =>
    match dig with
    | some i => fun s =>
        if h : i < s.names.length then .ok (s.names.get ⟨i, h⟩) s
        else .err "name reference too large"
    | none =>
      bindP (consumeP [63]) fun q =>                  -- b"?"
      if q then
        fun s =>
          match s.input with
          | 63 :: _ =>                                -- peek = Some(b'?')
            (bindP (parseM fuel) fun r => pureP (Name.ParsedName r)) s
          | _ =>
            (bindP (consumeP [36]) fun dollar =>      -- b"$"
             if dollar then
               bindP (read_template_nameM fuel) fun name =>
               fun s1 => .ok name (memorize_name name s1)
             else
               bindP (consumeP [65]) fun a =>         -- b"A": anonymous namespace
               if a then
                 bindP (consumeP [48, 120]) fun ox => -- b"0x"
                 bindP (fun s1 =>
                   .ok () (if ox then { s1 with input := skipHexDigits s1.input } else s1)) fun _ =>
                 bindP (expectP [64]) fun _ =>        -- b"@"
                 pureP Name.AnonymousNamespace
               else
                 bindP read_numberP fun disc =>
                 pureP (Name.Discriminator disc)) s
      else
        bindP read_stringP fun str =>
        let name := Name.NonTemplate str
        fun s => .ok name (memorize_name name s)
termination_by structural fuel => fuel

/-- `read_unqualified_name(function)`: like `read_nested_name` but with
the overloaded-operator escape, and template names are memorized only
when `function` is false. -/
def read_unqualified_nameM : Nat → Bool → PM Name
  | 0, _ => fun _ => .outOfFuel
  | fuel + 1, function =>
    bindP consume_digitP fun dig =>
    match dig with
    | some i => fun s =>
        if h : i < s.names.length then .ok (s.names.get ⟨i, h⟩) s
        else .err "name reference too large"
    | none =>
      bindP (consumeP [63, 36]) fun tq =>             -- b"?$"
      if tq then
        bindP (read_template_nameM fuel) fun name =>
        if function then pureP name
        else fun s => .ok name (memorize_name name s)
      else
        bindP (consumeP [63]) fun q =>                -- b"?": overloaded operator
        if q then read_operatorP
        else
          bindP read_stringP fun str =>
          let name := Name.NonTemplate str
          fun s => .ok name (memorize_name name s)
termination_by structural fuel => fuel

/-- `read_template_name`: swap in empty backreference tables, read the
base unqualified name and the parameter list, then restore the saved
tables. -/
def read_template_nameM : Nat → PM Name
  | 0 => fun _ => .outOfFuel
  | fuel + 1 => fun s =>
    let savedNames := s.names
    let savedTypes := s.types
    (bindP (read_unqualified_nameM fuel false) fun name =>
     bindP (read_paramsM fuel) fun tparams =>
     fun s2 => .ok (Name.Template name tparams) { s2 with names := savedNames, types := savedTypes })
    { s with names := [], types := [] }
termination_by structural fuel => fuel

/-- The loop of `read_scope`: nested names until a terminating `@`. -/
def scopeLoopM : Nat → List Name → PM NameSequence
  | 0, _ => fun _ => .outOfFuel
  | fuel + 1, acc =>
    bindP (consumeP [64]) fun term =>                 -- b"@"
    if term then pureP (NameSequence.mk acc)
    else
      bindP (read_nested_nameM fuel) fun name =>
      scopeLoopM fuel (acc ++ [name])
termination_by structural fuel => fuel

/-- `read_scope`. -/
def read_scopeM : Nat → PM NameSequence
  | 0 => fun _ => .outOfFuel
  | fuel + 1 => scopeLoopM fuel []
termination_by structural fuel => fuel

/-- `read_name(function)`: unqualified name, then the scope. -/
def read_nameM : Nat → Bool → PM Symbol
  | 0, _ => fun _ => .outOfFuel
  | fuel + 1, function =>
    bindP (read_unqualified_nameM fuel function) fun name =>
    bindP (read_scopeM fuel) fun scope =>
    pureP (Symbol.mk name scope)
termination_by structural fuel => fuel

/-- `read_func_type`. -/
def read_func_typeM : Nat → PM Typ
  | 0 => fun _ => .outOfFuel
  | fuel + 1 =>
    bindP read_calling_convP fun cc =>
    bindP (read_var_typeM fuel scEmpty) fun ret =>
    bindP (read_func_paramsM fuel) fun ps =>
    pureP (Typ.NonMemberFunction cc ps scEmpty ret)
termination_by structural fuel => fuel

/-- `read_func_return_type`: `@` means no declared return type. -/
def read_func_return_typeM : Nat → Nat → PM Typ
  | 0, _ => fun _ => .outOfFuel
  | fuel + 1, sc =>
    bindP (consumeP [64]) fun term =>                 -- b"@"
    if term then pureP Typ.None else read_var_typeM fuel sc
termination_by structural fuel => fuel

/-- `read_var_type`: the prefixed forms (`W4`, `A6`, `P6`, `P8`, the `$`
family).  When a consumed `$` matches none of the inner prefixes, control
falls through to the common tail with the `$` eaten and `sc` possibly
updated by `$$C` — exactly the source's fall-through. -/
def read_var_typeM : Nat → Nat → PM Typ
  | 0, _ => fun _ => .outOfFuel
  | fuel + 1, sc =>
    bindP (consumeP [87, 52]) fun w4 =>               -- b"W4": enum
    if w4 then
      bindP (read_nameM fuel false) fun nm => pureP (Typ.Enum nm sc)
    else
    bindP (consumeP [65, 54]) fun a6 =>               -- b"A6": function reference
    if a6 then
      bindP (read_func_typeM fuel) fun ft => pureP (Typ.Ref ft sc)
    else
    bindP (consumeP [80, 54]) fun p6 =>               -- b"P6": function pointer
    if p6 then
      bindP (read_func_typeM fuel) fun ft => pureP (Typ.Ptr ft sc)
    else
    bindP (consumeP [80, 56]) fun p8 =>               -- b"P8": member function pointer
    if p8 then
      bindP (read_unqualified_nameM fuel true) fun nm =>
      bindP (expectP [64]) fun _ =>                   -- b"@"
      bindP (expectP [69]) fun _ =>                   -- b"E" (required here: `expect(...)?`)
      bindP read_qualifierP fun ac =>
      bindP read_calling_convP fun _cc =>
      bindP read_storage_class_for_returnP fun scr =>
      bindP (read_func_return_typeM fuel scr) fun ret =>
      bindP (read_func_paramsM fuel) fun ps =>
      pureP (Typ.MemberFunctionPointer nm ps ac ret)
    else
    bindP (consumeP [36]) fun dollar =>               -- b"$"
    if dollar then
      bindP (consumeP [48]) fun d0 =>                 -- b"0": constant
      if d0 then bindP read_numberP fun n => pureP (Typ.Constant n)
      else
      bindP (consumeP [68]) fun dD =>                 -- b"D": template parameter
      if dD then bindP read_numberP fun n => pureP (Typ.TemplateParameterWithIndex n)
      else
      bindP (consumeP [36, 66, 89]) fun dBY =>        -- b"$BY" (i.e. `$$BY`): array
      if dBY then read_arrayM fuel
      else
      bindP (consumeP [36, 81]) fun dQ =>             -- b"$Q" (i.e. `$$Q`): rvalue ref
      if dQ then bindP (read_pointeeM fuel) fun t => pureP (Typ.RValueRef t sc)
      else
      bindP (consumeP [36, 67]) fun dC =>             -- b"$C" (i.e. `$$C`): qualifier
      bindP (if dC then read_qualifierP else pureP sc) fun sc2 =>
      bindP (consumeP [36, 86]) fun dV =>             -- b"$V" (i.e. `$$V`): empty pack
      if dV then pureP Typ.EmptyParameterPack
      else
      bindP (consumeP [36, 84]) fun dT =>             -- b"$T" (i.e. `$$T`): nullptr
      if dT then pureP Typ.Nullptr
      else
      bindP (consumeP [36, 65, 54]) fun dA6 =>        -- b"$A6" (i.e. `$$A6`)
      if dA6 then read_func_typeM fuel
      else read_var_type_tailM fuel sc2
    else read_var_type_tailM fuel sc
termination_by structural fuel => fuel

/-- The tail of `read_var_type` after the prefixed forms: `?<number>`
template parameter, digit backreference into `memorized_types`, or the
single-byte type codes dispatched through `get`. -/
def read_var_type_tailM : Nat → Nat → PM Typ
  | 0, _ => fun _ => .outOfFuel
  | fuel + 1, sc =>
    bindP (consumeP [63]) fun q =>                    -- b"?"
    if q then
      bindP read_numberP fun n => pureP (Typ.TemplateParameterWithIndex (-n))
    else
    bindP consume_digitP fun dig =>
    match dig with
    | some n => fun s =>
        if h : n < s.types.length then .ok (s.types.get ⟨n, h⟩) s
        else .err "invalid backreference"
    | none =>
      bindP getP fun c =>
      match c with
      | 84 => bindP (read_nameM fuel false) fun nm => pureP (Typ.Union nm sc)    -- b'T'
      | 85 => bindP (read_nameM fuel false) fun nm => pureP (Typ.Struct nm sc)   -- b'U'
      | 86 => bindP (read_nameM fuel false) fun nm => pureP (Typ.Class nm sc)    -- b'V'
      | 65 => bindP (read_pointeeM fuel) fun t => pureP (Typ.Ref t sc)           -- b'A'
      | 66 => bindP (read_pointeeM fuel) fun t => pureP (Typ.Ref t scVOLATILE)   -- b'B'
      | 80 => bindP (read_pointeeM fuel) fun t => pureP (Typ.Ptr t sc)           -- b'P'
      | 81 => bindP (read_pointeeM fuel) fun t => pureP (Typ.Ptr t scCONST)      -- b'Q'
      | 82 => bindP (read_pointeeM fuel) fun t => pureP (Typ.Ptr t scVOLATILE)   -- b'R'
      | 83 => bindP (read_pointeeM fuel) fun t =>                                -- b'S'
              pureP (Typ.Ptr t (scCONST ||| scVOLATILE))
      | 89 => read_arrayM fuel                                                   -- b'Y'
      | 88 => pureP (Typ.Void sc)                                                -- b'X'
      | 68 => pureP (Typ.Char sc)                                                -- b'D'
      | 67 => pureP (Typ.Schar sc)                                               -- b'C'
      | 69 => pureP (Typ.Uchar sc)                                               -- b'E'
      | 70 => pureP (Typ.Short sc)                                               -- b'F'
      | 71 => pureP (Typ.Ushort sc)                                              -- b'G'
      | 72 => pureP (Typ.Int sc)                                                 -- b'H'
      | 73 => pureP (Typ.Uint sc)                                                -- b'I'
      | 74 => pureP (Typ.Long sc)                                                -- b'J'
      | 75 => pureP (Typ.Ulong sc)                                               -- b'K'
      | 77 => pureP (Typ.Float sc)                                               -- b'M'
      | 78 => pureP (Typ.Double sc)                                              -- b'N'
      | 79 => pureP (Typ.Ldouble sc)                                             -- b'O'
      | 95 =>                                                                    -- b'_'
        bindP getP fun c2 =>
        match c2 with
        | 78 => pureP (Typ.Bool sc)                                              -- b'N'
        | 74 => pureP (Typ.Int64 sc)                                             -- b'J'
        | 75 => pureP (Typ.Uint64 sc)                                            -- b'K'
        | 87 => pureP (Typ.Wchar sc)                                             -- b'W'
        | 83 => pureP (Typ.Char16 sc)                                            -- b'S'
        | 85 => pureP (Typ.Char32 sc)                                            -- b'U'
        | _ => errP "unknown primitive type"
      | _ => errP "unknown primitive type"
termination_by structural fuel => fuel

/-- `read_pointee`: optional `E`, a storage class, then the type. -/
def read_pointeeM : Nat → PM Typ
  | 0 => fun _ => .outOfFuel
  | fuel + 1 =>
    -- `let _is_64bit_ptr = self.expect(b"E");` (result ignored)
    bindP (consumeP [69]) fun _ =>
    bindP read_storage_classP fun sc =>
    read_var_typeM fuel sc
termination_by structural fuel => fuel

/-- `read_array`: the dimension count, then the nested lengths; a
non-positive dimension is fatal. -/
def read_arrayM : Nat → PM Typ
  | 0 => fun _ => .outOfFuel
  | fuel + 1 =>
    bindP read_numberP fun dimension =>
    if dimension ≤ 0 then errP "invalid array dimension"
    else
      bindP (read_nested_arrayM fuel dimension) fun pr => pureP pr.1
termination_by structural fuel => fuel

/-- `read_nested_array(dimension)`: while the dimension is positive, read
a length and recurse; the storage class decoded at the innermost level
(optional `$$C{A,B,C,D}`) is returned upward and stamped on every
`Typ.Array` wrapper; the element type itself is read with an empty
storage class. -/
def read_nested_arrayM : Nat → Int → PM (Typ × Nat)
  | 0, _ => fun _ => .outOfFuel
  | fuel + 1, dimension =>
    if 0 < dimension then
      bindP read_numberP fun len =>
      bindP (read_nested_arrayM fuel (dimension - 1)) fun pr =>
      pureP (Typ.Array len pr.1 pr.2, pr.2)
    else
      bindP (consumeP [36, 36, 67]) fun ssc =>        -- b"$$C"
      bindP (if ssc then
               bindP (consumeP [66]) fun cB =>        -- b"B"
               if cB then pureP scCONST
               else
                 bindP (consumeP [67]) fun cC =>      -- b"C"
                 bindP (if cC then pureP true else consumeP [68]) fun cCD =>  -- b"D"
                 if cCD then pureP (scCONST ||| scVOLATILE)
                 else
                   bindP (consumeP [65]) fun cA =>    -- b"A"
                   if !cA then errP "unknown storage class"
                   else pureP scEmpty
             else pureP scEmpty) fun storageClass =>
      bindP (read_var_typeM fuel scEmpty) fun t =>
      pureP (t, storageClass)
termination_by structural fuel => fuel

/-- The loop of `read_params`: types until `@`, `Z`, or end of input;
digit prefixes select backreferenced types; an entry that consumed more
than one byte is memorized. -/
def paramsLoopM : Nat → List Typ → PM (List Typ)
  | 0, _ => fun _ => .outOfFuel
  | fuel + 1, acc => fun s =>
    match s.input with
    | [] => .ok acc s
    | b :: _ =>
      if b = 64 ∨ b = 90 then .ok acc s               -- b"@" / b"Z"
      else
        (bindP consume_digitP fun dig =>
         match dig with
         | some n => fun s1 =>
             if h : n < s1.types.length then
               paramsLoopM fuel (acc ++ [s1.types.get ⟨n, h⟩]) s1
             else .err "invalid backreference"
         | none => fun s1 =>
             let len := s1.input.length
             (bindP (read_var_typeM fuel scEmpty) fun paramType =>
              fun s2 =>
                let s3 := if len - s2.input.length > 1 then memorize_type paramType s2 else s2
                paramsLoopM fuel (acc ++ [paramType]) s3) s1) s
termination_by structural fuel => fuel

/-- `read_params`: the loop, then `Z` (varargs), bare end of input
(tolerated for standalone template manglings), or the `@` terminator. -/
def read_paramsM : Nat → PM Params
  | 0 => fun _ => .outOfFuel
  | fuel + 1 =>
    bindP (paramsLoopM fuel []) fun params =>
    bindP (consumeP [90]) fun z =>                    -- b"Z"
    if z then pureP (Params.mk (params ++ [Typ.VarArgs]))
    else fun s =>
      if s.input.isEmpty then .ok (Params.mk params) s
      else (bindP (expectP [64]) fun _ => pureP (Params.mk params)) s
termination_by structural fuel => fuel

/-- `read_func_params`: bare `X` is a single `void` parameter; always a
trailing `Z`. -/
def read_func_paramsM : Nat → PM Params
  | 0 => fun _ => .outOfFuel
  | fuel + 1 =>
    bindP (consumeP [88]) fun x =>                    -- b"X"
    bindP (if x then pureP (Params.mk [Typ.Void scEmpty]) else read_paramsM fuel) fun params =>
    bindP (expectP [90]) fun _ =>                     -- b"Z"
    pureP params
termination_by structural fuel => fuel

end

/-- The public `parse` entry point: a fresh state with empty tables. -/
def parseBytes (fuel : Nat) (input : List Nat) : POut ParseResult :=
  parseM fuel { input := input, names := [], types := [] }

/-- ASCII bytes of a string literal (all inputs used here are ASCII). -/
def strBytes (s : String) : List Nat := s.data.map Char.toNat

/-! ### Serializer: the space-insertion rules

The output buffer is the byte list `w`; the decision looks at the
literal last byte (`self.w.last()`). -/

def isAsciiAlphabetic (c : Nat) : Bool := (65 ≤ c && c ≤ 90) || (97 ≤ c && c ≤ 122)

/-- `Serializer::write_space_pre`: in `LessWhitespace` a space (32) goes
in only after an alphabetic byte; in `LotsOfWhitespace` also after `&`
(38) or `>` (62) — but not after `*`. -/
def write_space_pre (flags : DemangleFlags) (w : List Nat) : List Nat :=
  match w.getLast? with
  | some c =>
    match flags with
    | .LessWhitespace => if isAsciiAlphabetic c then w ++ [32] else w
    | .LotsOfWhitespace =>
        if isAsciiAlphabetic c || c = 38 || c = 62 then w ++ [32] else w
  | none => w

/-- `Serializer::write_space`: like `write_space_pre` but
`LotsOfWhitespace` also treats `*` (42) as a separator-worthy
predecessor. -/
def write_space (flags : DemangleFlags) (w : List Nat) : List Nat :=
  match w.getLast? with
  | some c =>
    match flags with
    | .LessWhitespace => if isAsciiAlphabetic c then w ++ [32] else w
    | .LotsOfWhitespace =>
        if isAsciiAlphabetic c || c = 42 || c = 38 || c = 62 then w ++ [32] else w
  | none => w


/-! ### The backreference-table invariant (spec section 4.2 / section 8)

`tablesInv`: both tables hold at most 10 entries and no two entries are
structurally equal (the source's `PartialEq`).  `TablePreserving m`: a
successful run of `m` preserves the invariant and only ever extends each
table at the end (entries stay in first-seen order); `read_template_name`
restores the saved tables, which is extension by nothing. -/

def tablesInv (s : PState) : Prop :=
  s.names.length ≤ 10 ∧
  List.Pairwise (fun a b => structEqName a b = false) s.names ∧
  s.types.length ≤ 10 ∧
  List.Pairwise (fun a b => structEqTyp a b = false) s.types

def TablePreserving {α : Type} (m : PM α) : Prop :=
  ∀ s a s', m s = .ok a s' →
    (tablesInv s → tablesInv s') ∧
    (∃ u, s'.names = s.names ++ u) ∧
    (∃ v, s'.types = s.types ++ v)

theorem tp_noFuel {α : Type} : TablePreserving (fun _ : PState => (POut.outOfFuel : POut α)) := by
  intro s a s' h
  exact absurd h (by simp)

theorem tp_pure {α : Type} (a : α) : TablePreserving (pureP a) := by
  intro s b s' h
  simp only [pureP, POut.ok.injEq] at h
  obtain ⟨rfl, rfl⟩ := h
  exact ⟨id, ⟨[], by simp⟩, ⟨[], by simp⟩⟩

theorem tp_err {α : Type} (e : String) : TablePreserving (errP (α := α) e) := by
  intro s a s' h
  exact absurd h (by simp [errP])

theorem tp_bind {α β : Type} {m : PM α} {f : α → PM β}
    (hm : TablePreserving m) (hf : ∀ a, TablePreserving (f a)) :
    TablePreserving (bindP m f) := by
  intro s b s' h
  simp only [bindP] at h
  cases hm1 : m s with
  | ok a s1 =>
    rw [hm1] at h
    obtain ⟨hi1, ⟨u1, hu1⟩, ⟨v1, hv1⟩⟩ := hm s a s1 hm1
    obtain ⟨hi2, ⟨u2, hu2⟩, ⟨v2, hv2⟩⟩ := hf a s1 b s' h
    exact ⟨fun hs => hi2 (hi1 hs), ⟨u1 ++ u2, by rw [hu2, hu1, List.append_assoc]⟩,
           ⟨v1 ++ v2, by rw [hv2, hv1, List.append_assoc]⟩⟩
  | err e => rw [hm1] at h; exact absurd h (by simp)
  | abort e => rw [hm1] at h; exact absurd h (by simp)
  | outOfFuel => rw [hm1] at h; exact absurd h (by simp)

theorem tp_ifOkP {α β : Type} {m : PM α} {f : α → PM β} {g : PM β}
    (hm : TablePreserving m) (hf : ∀ a, TablePreserving (f a)) (hg : TablePreserving g) :
    TablePreserving (ifOkP m f g) := by
  intro s b s' h
  simp only [ifOkP] at h
  cases hm1 : m s with
  | ok a s1 =>
    rw [hm1] at h
    obtain ⟨hi1, ⟨u1, hu1⟩, ⟨v1, hv1⟩⟩ := hm s a s1 hm1
    obtain ⟨hi2, ⟨u2, hu2⟩, ⟨v2, hv2⟩⟩ := hf a s1 b s' h
    exact ⟨fun hs => hi2 (hi1 hs), ⟨u1 ++ u2, by rw [hu2, hu1, List.append_assoc]⟩,
           ⟨v1 ++ v2, by rw [hv2, hv1, List.append_assoc]⟩⟩
  | err e => rw [hm1] at h; exact hg s b s' h
  | abort e => rw [hm1] at h; exact absurd h (by simp)
  | outOfFuel => rw [hm1] at h; exact absurd h (by simp)

theorem tp_ite {α : Type} {c : Prop} [Decidable c] {m1 m2 : PM α}
    (h1 : TablePreserving m1) (h2 : TablePreserving m2) :
    TablePreserving (if c then m1 else m2) := by
  split
  · exact h1
  · exact h2

/-- A computation that can only change the `input` field. -/
def tablesFixed {α : Type} (m : PM α) : Prop :=
  ∀ s a s', m s = .ok a s' → s'.names = s.names ∧ s'.types = s.types

theorem tp_of_fixed {α : Type} {m : PM α} (h : tablesFixed m) : TablePreserving m := by
  intro s a s' hm
  obtain ⟨hn, ht⟩ := h s a s' hm
  refine ⟨fun hs => ?_, ⟨[], by simp [hn]⟩, ⟨[], by simp [ht]⟩⟩
  unfold tablesInv at hs ⊢
  rw [hn, ht]
  exact hs

theorem fixed_pure {α : Type} (a : α) : tablesFixed (pureP a) := by
  intro s b s' h
  simp only [pureP, POut.ok.injEq] at h
  obtain ⟨rfl, rfl⟩ := h
  exact ⟨rfl, rfl⟩

theorem fixed_err {α : Type} (e : String) : tablesFixed (errP (α := α) e) := by
  intro s a s' h
  exact absurd h (by simp [errP])

theorem fixed_bind {α β : Type} {m : PM α} {f : α → PM β}
    (hm : tablesFixed m) (hf : ∀ a, tablesFixed (f a)) : tablesFixed (bindP m f) := by
  intro s b s' h
  simp only [bindP] at h
  cases hm1 : m s with
  | ok a s1 =>
    rw [hm1] at h
    obtain ⟨hn1, ht1⟩ := hm s a s1 hm1
    obtain ⟨hn2, ht2⟩ := hf a s1 b s' h
    exact ⟨hn2.trans hn1, ht2.trans ht1⟩
  | err e => rw [hm1] at h; exact absurd h (by simp)
  | abort e => rw [hm1] at h; exact absurd h (by simp)
  | outOfFuel => rw [hm1] at h; exact absurd h (by simp)

theorem fixed_ite {α : Type} {c : Prop} [Decidable c] {m1 m2 : PM α}
    (h1 : tablesFixed m1) (h2 : tablesFixed m2) : tablesFixed (if c then m1 else m2) := by
  split
  · exact h1
  · exact h2

theorem getP_fixed : tablesFixed getP := by
  intro s a s' h
  unfold getP at h
  split at h
  · simp only [POut.ok.injEq] at h
    obtain ⟨rfl, rfl⟩ := h
    exact ⟨rfl, rfl⟩
  · exact absurd h (by simp)

theorem consumeP_fixed (lit : List Nat) : tablesFixed (consumeP lit) := by
  intro s a s' h
  unfold consumeP at h
  split at h <;> simp only [POut.ok.injEq] at h <;> obtain ⟨rfl, rfl⟩ := h <;> exact ⟨rfl, rfl⟩

theorem expectP_fixed (lit : List Nat) : tablesFixed (expectP lit) :=
  fixed_bind (consumeP_fixed lit) fun b => by
    cases b
    · exact fixed_err _
    · exact fixed_pure _

theorem consume_digitP_fixed : tablesFixed consume_digitP := by
  intro s a s' h
  unfold consume_digitP at h
  split at h
  · split at h <;> simp only [POut.ok.injEq] at h <;> obtain ⟨rfl, rfl⟩ := h <;> exact ⟨rfl, rfl⟩
  · simp only [POut.ok.injEq] at h
    obtain ⟨rfl, rfl⟩ := h
    exact ⟨rfl, rfl⟩

theorem read_numberP_fixed : tablesFixed read_numberP := by
  refine fixed_bind (consumeP_fixed _) fun neg => ?_
  refine fixed_bind consume_digitP_fixed fun dig => ?_
  cases dig with
  | some d => exact fixed_pure _
  | none =>
    intro s a s' h
    simp only at h
    split at h
    · simp only [POut.ok.injEq] at h
      obtain ⟨rfl, rfl⟩ := h
      exact ⟨rfl, rfl⟩
    · exact absurd h (by simp)

theorem read_stringP_fixed : tablesFixed read_stringP := by
  intro s a s' h
  unfold read_stringP at h
  split at h
  · simp only [POut.ok.injEq] at h
    obtain ⟨rfl, rfl⟩ := h
    exact ⟨rfl, rfl⟩
  · exact absurd h (by simp)

theorem read_operator_nameP_fixed : tablesFixed read_operator_nameP := by
  refine fixed_bind getP_fixed fun c => ?_
  split
  all_goals
    first
    | exact fixed_pure _
    | exact fixed_err _
    | · refine fixed_bind getP_fixed fun c2 => ?_
        split
        all_goals
          first
          | exact fixed_pure _
          | exact fixed_err _
          | · refine fixed_bind (consumeP_fixed _) fun l => ?_
              cases l
              · refine fixed_bind (consumeP_fixed _) fun k => ?_
                cases k
                · exact fixed_err _
                · exact fixed_pure _
              · exact fixed_pure _

theorem read_operatorP_fixed : tablesFixed read_operatorP :=
  fixed_bind read_operator_nameP_fixed fun _ => fixed_pure _

theorem readThunkP_fixed (fc : Nat) : tablesFixed (readThunkP fc) :=
  fixed_bind read_numberP_fixed fun _ => fixed_pure _

theorem read_func_classP_fixed (c : Nat) : tablesFixed (read_func_classP c) := by
  unfold read_func_classP
  split
  all_goals first | exact fixed_pure _ | exact fixed_err _ | exact readThunkP_fixed _

theorem read_qualifierP_fixed : tablesFixed read_qualifierP := by
  intro s a s' h
  unfold read_qualifierP at h
  split at h
  all_goals (try split at h) <;> (try split at h) <;> (try split at h) <;> (try split at h) <;>
    simp only [POut.ok.injEq] at h <;> obtain ⟨rfl, rfl⟩ := h <;> exact ⟨rfl, rfl⟩

theorem read_calling_convP_fixed : tablesFixed read_calling_convP := by
  refine fixed_bind getP_fixed fun c => ?_
  split
  all_goals first | exact fixed_pure _ | exact fixed_err _

theorem read_storage_classP_fixed : tablesFixed read_storage_classP := by
  intro s a s' h
  unfold read_storage_classP at h
  split at h
  all_goals
    (try split at h) <;> (try split at h) <;> (try split at h) <;> (try split at h) <;>
    (try split at h) <;> (try split at h) <;> (try split at h) <;> (try split at h) <;>
    simp only [POut.ok.injEq] at h <;> obtain ⟨rfl, rfl⟩ := h <;> exact ⟨rfl, rfl⟩

theorem read_storage_class_for_returnP_fixed : tablesFixed read_storage_class_for_returnP := by
  refine fixed_bind (consumeP_fixed _) fun q => ?_
  cases q
  · simp only [Bool.not_false, if_true]
    exact fixed_pure _
  · simp only [Bool.not_true, if_false]
    refine fixed_bind getP_fixed fun c => ?_
    split
    all_goals first | exact fixed_pure _ | exact fixed_err _



theorem contains_false_all {l : List Name} {n : Name} (hc : containsName l n = false) :
    ∀ m ∈ l, structEqName m n = false := by
  intro m hm
  have := List.any_eq_false.mp hc m hm
  simpa using this

theorem containsTyp_false_all {l : List Typ} {t : Typ} (hc : containsTyp l t = false) :
    ∀ m ∈ l, structEqTyp m t = false := by
  intro m hm
  have := List.any_eq_false.mp hc m hm
  simpa using this

/-- `memorize_name` keeps the invariant, only appends, and touches
nothing else. -/
theorem memorize_name_spec (nm : Name) (s : PState) :
    (tablesInv s → tablesInv (memorize_name nm s)) ∧
    (∃ u, (memorize_name nm s).names = s.names ++ u) ∧
    (memorize_name nm s).types = s.types ∧ (memorize_name nm s).input = s.input := by
  unfold memorize_name
  split
  case isTrue h =>
    simp only [Bool.and_eq_true, decide_eq_true_eq, Bool.not_eq_true'] at h
    obtain ⟨hlen, hcont⟩ := h
    refine ⟨fun hs => ?_, ⟨[nm], rfl⟩, rfl, rfl⟩
    obtain ⟨h1, h2, h3, h4⟩ := hs
    refine ⟨?_, ?_, h3, h4⟩
    · simp only [List.length_append, List.length_singleton]
      omega
    · rw [List.pairwise_append]
      exact ⟨h2, List.pairwise_singleton _ _, fun a ha b hb => by
        simp only [List.mem_singleton] at hb
        subst hb
        exact contains_false_all hcont a ha⟩
  case isFalse h =>
    exact ⟨id, ⟨[], by simp⟩, rfl, rfl⟩

theorem memorize_type_spec (t : Typ) (s : PState) :
    (tablesInv s → tablesInv (memorize_type t s)) ∧
    (∃ v, (memorize_type t s).types = s.types ++ v) ∧
    (memorize_type t s).names = s.names ∧ (memorize_type t s).input = s.input := by
  unfold memorize_type
  split
  case isTrue h =>
    simp only [Bool.and_eq_true, decide_eq_true_eq, Bool.not_eq_true'] at h
    obtain ⟨hlen, hcont⟩ := h
    refine ⟨fun hs => ?_, ⟨[t], rfl⟩, rfl, rfl⟩
    obtain ⟨h1, h2, h3, h4⟩ := hs
    refine ⟨h1, h2, ?_, ?_⟩
    · simp only [List.length_append, List.length_singleton]
      omega
    · rw [List.pairwise_append]
      exact ⟨h4, List.pairwise_singleton _ _, fun a ha b hb => by
        simp only [List.mem_singleton] at hb
        subst hb
        exact containsTyp_false_all hcont a ha⟩
  case isFalse h =>
    exact ⟨id, ⟨[], by simp⟩, rfl, rfl⟩

/-- The `self.memorize_name(&name); name` tail of the identifier and
template branches. -/
theorem tp_memoName {α : Type} (nm : Name) (a : α) :
    TablePreserving (fun s => POut.ok a (memorize_name nm s)) := by
  intro s b s' h
  simp only [POut.ok.injEq] at h
  obtain ⟨rfl, rfl⟩ := h
  obtain ⟨hi, hu, ht, _⟩ := memorize_name_spec nm s
  exact ⟨hi, hu, ⟨[], by simp [ht]⟩⟩

/-- The digit branch of the name readers: a backreference into
`memorized_names`. -/
theorem tp_backref_names (i : Nat) :
    TablePreserving (fun s : PState =>
      if h : i < s.names.length then POut.ok (s.names.get ⟨i, h⟩) s
      else .err "name reference too large") := by
  intro s a s' h
  dsimp only at h
  split at h
  · simp only [POut.ok.injEq] at h
    obtain ⟨rfl, rfl⟩ := h
    exact ⟨id, ⟨[], by simp⟩, ⟨[], by simp⟩⟩
  · exact absurd h (by simp)

/-- The digit branch of `read_var_type`: a backreference into
`memorized_types`. -/
theorem tp_backref_types (i : Nat) :
    TablePreserving (fun s : PState =>
      if h : i < s.types.length then POut.ok (s.types.get ⟨i, h⟩) s
      else .err "invalid backreference") := by
  intro s a s' h
  dsimp only at h
  split at h
  · simp only [POut.ok.injEq] at h
    obtain ⟨rfl, rfl⟩ := h
    exact ⟨id, ⟨[], by simp⟩, ⟨[], by simp⟩⟩
  · exact absurd h (by simp)

theorem fixed_skipHex (ox : Bool) :
    tablesFixed (fun s : PState =>
      POut.ok () (if ox then { s with input := skipHexDigits s.input } else s)) := by
  intro s a s' h
  simp only [POut.ok.injEq] at h
  obtain ⟨-, rfl⟩ := h
  cases ox <;> exact ⟨rfl, rfl⟩


/-- Table preservation for every function of the recursive-descent knot,
by induction on fuel.  Every reachable intermediate state of a parse is
the post-state of one of these functions (or of a table-untouching
primitive), so this covers the whole of any run. -/
theorem knot_tables : ∀ fuel : Nat,
    TablePreserving (parseM fuel) ∧
    TablePreserving (read_nested_nameM fuel) ∧
    (∀ fn, TablePreserving (read_unqualified_nameM fuel fn)) ∧
    TablePreserving (read_template_nameM fuel) ∧
    (∀ acc, TablePreserving (scopeLoopM fuel acc)) ∧
    TablePreserving (read_scopeM fuel) ∧
    (∀ fn, TablePreserving (read_nameM fuel fn)) ∧
    TablePreserving (read_func_typeM fuel) ∧
    (∀ sc, TablePreserving (read_func_return_typeM fuel sc)) ∧
    (∀ sc, TablePreserving (read_var_typeM fuel sc)) ∧
    (∀ sc, TablePreserving (read_var_type_tailM fuel sc)) ∧
    TablePreserving (read_pointeeM fuel) ∧
    TablePreserving (read_arrayM fuel) ∧
    (∀ d, TablePreserving (read_nested_arrayM fuel d)) ∧
    (∀ acc, TablePreserving (paramsLoopM fuel acc)) ∧
    TablePreserving (read_paramsM fuel) ∧
    TablePreserving (read_func_paramsM fuel) := by
  intro fuel
  induction fuel with
  | zero =>
    exact ⟨tp_noFuel, tp_noFuel, fun _ => tp_noFuel, tp_noFuel, fun _ => tp_noFuel, tp_noFuel,
           fun _ => tp_noFuel, tp_noFuel, fun _ => tp_noFuel, fun _ => tp_noFuel,
           fun _ => tp_noFuel, tp_noFuel, tp_noFuel, fun _ => tp_noFuel, fun _ => tp_noFuel,
           tp_noFuel, tp_noFuel⟩
  | succ n ih =>
    obtain ⟨ihParse, ihNested, ihUnq, ihTmpl, ihScopeLoop, ihScope, ihName, ihFuncT, ihRet,
            ihVar, ihTail, ihPointee, ihArr, ihNestArr, ihParamsLoop, ihParams, ihFuncParams⟩ := ih
    refine ⟨?_, ?_, ?_, ?_, ?_, ?_, ?_, ?_, ?_, ?_, ?_, ?_, ?_, ?_, ?_, ?_, ?_⟩
    -- parseM
    · simp only [parseM]
      refine tp_bind (tp_of_fixed (consumeP_fixed _)) fun q => ?_
      refine tp_ite (tp_err _) ?_
      refine tp_bind (tp_of_fixed (consumeP_fixed _)) fun dollar => ?_
      refine tp_ite ?_ ?_
      · refine tp_bind (tp_of_fixed (consumeP_fixed _)) fun tss => ?_
        refine tp_ite ?_ (tp_bind ihTmpl fun _ => tp_pure _)
        refine tp_bind (tp_of_fixed consume_digitP_fixed) fun dig => ?_
        cases dig with
        | none => exact tp_err _
        | some d =>
          intro s a s' h
          dsimp only at h
          split at h
          · exact absurd h (by simp)
          · rename_i guardNum rest heq
            have hT : TablePreserving
                (bindP (read_nested_nameM n) fun name =>
                 bindP (read_scopeM n) fun scope =>
                 bindP (expectP [52, 72, 65]) fun _ =>
                 pureP (ParseResult.mk (Symbol.mk name scope) (Typ.ThreadSafeStaticGuard guardNum))) :=
              tp_bind ihNested fun name =>
              tp_bind ihScope fun scope =>
              tp_bind (tp_of_fixed (expectP_fixed _)) fun _ => tp_pure _
            exact hT { s with input := rest } a s' h
      · refine tp_bind (ihName true) fun symbol => ?_
        refine tp_ifOkP (tp_of_fixed getP_fixed) (fun c => ?_) (tp_pure _)
        refine tp_ite (tp_bind (ihVar scEmpty) fun _ => tp_pure _) ?_
        refine tp_ite (tp_bind (tp_of_fixed read_qualifierP_fixed) fun _ =>
                       tp_bind ihScope fun _ => tp_pure _) ?_
        refine tp_ite (tp_bind (tp_of_fixed read_qualifierP_fixed) fun _ =>
                       tp_bind ihScope fun _ => tp_pure _) ?_
        refine tp_ite (tp_bind (tp_of_fixed read_calling_convP_fixed) fun _ =>
                       tp_bind (tp_of_fixed read_storage_class_for_returnP_fixed) fun sc =>
                       tp_bind (ihVar sc) fun _ =>
                       tp_bind ihFuncParams fun _ => tp_pure _) ?_
        refine tp_bind (tp_of_fixed (read_func_classP_fixed c)) fun fc => ?_
        refine tp_bind (tp_ite (tp_pure _)
                 (tp_bind (tp_of_fixed (consumeP_fixed _)) fun _ =>
                  tp_of_fixed read_qualifierP_fixed)) fun ac => ?_
        refine tp_bind (tp_of_fixed read_calling_convP_fixed) fun _ => ?_
        refine tp_bind (tp_of_fixed read_storage_class_for_returnP_fixed) fun scr => ?_
        exact tp_bind (ihRet scr) fun _ => tp_bind ihFuncParams fun _ => tp_pure _
    -- read_nested_nameM
    · simp only [read_nested_nameM]
      refine tp_bind (tp_of_fixed consume_digitP_fixed) fun dig => ?_
      cases dig with
      | some i => exact tp_backref_names i
      | none =>
        refine tp_bind (tp_of_fixed (consumeP_fixed _)) fun q => ?_
        refine tp_ite ?_ (tp_bind (tp_of_fixed read_stringP_fixed) fun str => tp_memoName _ _)
        intro s a s' h
        dsimp only at h
        split at h
        · exact (tp_bind ihParse fun r => tp_pure _) s a s' h
        · refine (tp_bind (tp_of_fixed (consumeP_fixed _)) fun dollar => ?_) s a s' h
          refine tp_ite (tp_bind ihTmpl fun name => tp_memoName _ _) ?_
          refine tp_bind (tp_of_fixed (consumeP_fixed _)) fun a1 => ?_
          refine tp_ite ?_ (tp_bind (tp_of_fixed read_numberP_fixed) fun _ => tp_pure _)
          exact tp_bind (tp_of_fixed (consumeP_fixed _)) fun ox =>
                tp_bind (tp_of_fixed (fixed_skipHex ox)) fun _ =>
                tp_bind (tp_of_fixed (expectP_fixed _)) fun _ => tp_pure _
    -- read_unqualified_nameM
    · intro fn
      simp only [read_unqualified_nameM]
      refine tp_bind (tp_of_fixed consume_digitP_fixed) fun dig => ?_
      cases dig with
      | some i => exact tp_backref_names i
      | none =>
        refine tp_bind (tp_of_fixed (consumeP_fixed _)) fun tq => ?_
        refine tp_ite (tp_bind ihTmpl fun name => tp_ite (tp_pure _) (tp_memoName _ _)) ?_
        refine tp_bind (tp_of_fixed (consumeP_fixed _)) fun q => ?_
        exact tp_ite (tp_of_fixed read_operatorP_fixed)
              (tp_bind (tp_of_fixed read_stringP_fixed) fun str => tp_memoName _ _)
    -- read_template_nameM
    · intro s a s' h
      simp only [read_template_nameM, bindP] at h
      split at h
      · split at h
        · simp only [POut.ok.injEq] at h
          obtain ⟨rfl, rfl⟩ := h
          exact ⟨fun hs => hs, ⟨[], by simp⟩, ⟨[], by simp⟩⟩
        · exact absurd h (by simp)
        · exact absurd h (by simp)
        · exact absurd h (by simp)
      · exact absurd h (by simp)
      · exact absurd h (by simp)
      · exact absurd h (by simp)
    -- scopeLoopM
    · intro acc
      simp only [scopeLoopM]
      refine tp_bind (tp_of_fixed (consumeP_fixed _)) fun term => ?_
      exact tp_ite (tp_pure _) (tp_bind ihNested fun name => ihScopeLoop _)
    -- read_scopeM
    · simp only [read_scopeM]
      exact ihScopeLoop []
    -- read_nameM
    · intro fn
      simp only [read_nameM]
      exact tp_bind (ihUnq fn) fun _ => tp_bind ihScope fun _ => tp_pure _
    -- read_func_typeM
    · simp only [read_func_typeM]
      exact tp_bind (tp_of_fixed read_calling_convP_fixed) fun _ =>
            tp_bind (ihVar scEmpty) fun _ =>
            tp_bind ihFuncParams fun _ => tp_pure _
    -- read_func_return_typeM
    · intro sc
      simp only [read_func_return_typeM]
      refine tp_bind (tp_of_fixed (consumeP_fixed _)) fun term => ?_
      exact tp_ite (tp_pure _) (ihVar sc)
    -- read_var_typeM
    · intro sc
      simp only [read_var_typeM]
      refine tp_bind (tp_of_fixed (consumeP_fixed _)) fun w4 => ?_
      refine tp_ite (tp_bind (ihName false) fun _ => tp_pure _) ?_
      refine tp_bind (tp_of_fixed (consumeP_fixed _)) fun a6 => ?_
      refine tp_ite (tp_bind ihFuncT fun _ => tp_pure _) ?_
      refine tp_bind (tp_of_fixed (consumeP_fixed _)) fun p6 => ?_
      refine tp_ite (tp_bind ihFuncT fun _ => tp_pure _) ?_
      refine tp_bind (tp_of_fixed (consumeP_fixed _)) fun p8 => ?_
      refine tp_ite ?_ ?_
      · exact tp_bind (ihUnq true) fun _ =>
              tp_bind (tp_of_fixed (expectP_fixed _)) fun _ =>
              tp_bind (tp_of_fixed (expectP_fixed _)) fun _ =>
              tp_bind (tp_of_fixed read_qualifierP_fixed) fun _ =>
              tp_bind (tp_of_fixed read_calling_convP_fixed) fun _ =>
              tp_bind (tp_of_fixed read_storage_class_for_returnP_fixed) fun scr =>
              tp_bind (ihRet scr) fun _ =>
              tp_bind ihFuncParams fun _ => tp_pure _
      refine tp_bind (tp_of_fixed (consumeP_fixed _)) fun dollar => ?_
      refine tp_ite ?_ (ihTail sc)
      refine tp_bind (tp_of_fixed (consumeP_fixed _)) fun d0 => ?_
      refine tp_ite (tp_bind (tp_of_fixed read_numberP_fixed) fun _ => tp_pure _) ?_
      refine tp_bind (tp_of_fixed (consumeP_fixed _)) fun dD => ?_
      refine tp_ite (tp_bind (tp_of_fixed read_numberP_fixed) fun _ => tp_pure _) ?_
      refine tp_bind (tp_of_fixed (consumeP_fixed _)) fun dBY => ?_
      refine tp_ite ihArr ?_
      refine tp_bind (tp_of_fixed (consumeP_fixed _)) fun dQ => ?_
      refine tp_ite (tp_bind ihPointee fun _ => tp_pure _) ?_
      refine tp_bind (tp_of_fixed (consumeP_fixed _)) fun dC => ?_
      refine tp_bind (tp_ite (tp_of_fixed read_qualifierP_fixed) (tp_pure _)) fun sc2 => ?_
      refine tp_bind (tp_of_fixed (consumeP_fixed _)) fun dV => ?_
      refine tp_ite (tp_pure _) ?_
      refine tp_bind (tp_of_fixed (consumeP_fixed _)) fun dT => ?_
      refine tp_ite (tp_pure _) ?_
      refine tp_bind (tp_of_fixed (consumeP_fixed _)) fun dA6 => ?_
      exact tp_ite ihFuncT (ihTail sc2)
    -- read_var_type_tailM
    · intro sc
      simp only [read_var_type_tailM]
      refine tp_bind (tp_of_fixed (consumeP_fixed _)) fun q => ?_
      refine tp_ite (tp_bind (tp_of_fixed read_numberP_fixed) fun _ => tp_pure _) ?_
      refine tp_bind (tp_of_fixed consume_digitP_fixed) fun dig => ?_
      cases dig with
      | some i => exact tp_backref_types i
      | none =>
        refine tp_bind (tp_of_fixed getP_fixed) fun c => ?_
        split
        all_goals
          first
          | exact tp_pure _
          | exact tp_err _
          | exact ihArr
          | exact tp_bind (ihName false) fun _ => tp_pure _
          | exact tp_bind ihPointee fun _ => tp_pure _
          | · refine tp_bind (tp_of_fixed getP_fixed) fun c2 => ?_
              split
              all_goals first | exact tp_pure _ | exact tp_err _
    -- read_pointeeM
    · simp only [read_pointeeM]
      exact tp_bind (tp_of_fixed (consumeP_fixed _)) fun _ =>
            tp_bind (tp_of_fixed read_storage_classP_fixed) fun sc => ihVar sc
    -- read_arrayM
    · simp only [read_arrayM]
      refine tp_bind (tp_of_fixed read_numberP_fixed) fun dim => ?_
      exact tp_ite (tp_err _) (tp_bind (ihNestArr dim) fun _ => tp_pure _)
    -- read_nested_arrayM
    · intro d
      simp only [read_nested_arrayM]
      refine tp_ite ?_ ?_
      · exact tp_bind (tp_of_fixed read_numberP_fixed) fun len =>
              tp_bind (ihNestArr (d - 1)) fun pr => tp_pure _
      · refine tp_bind (tp_of_fixed (consumeP_fixed _)) fun ssc => ?_
        refine tp_bind (tp_ite ?_ (tp_pure _)) fun st => ?_
        · refine tp_bind (tp_of_fixed (consumeP_fixed _)) fun cB => ?_
          refine tp_ite (tp_pure _) ?_
          refine tp_bind (tp_of_fixed (consumeP_fixed _)) fun cC => ?_
          refine tp_bind (tp_ite (tp_pure _) (tp_of_fixed (consumeP_fixed _))) fun cCD => ?_
          refine tp_ite (tp_pure _) ?_
          refine tp_bind (tp_of_fixed (consumeP_fixed _)) fun cA => ?_
          exact tp_ite (tp_err _) (tp_pure _)
        · exact tp_bind (ihVar scEmpty) fun _ => tp_pure _
    -- paramsLoopM
    · intro acc
      intro s a s' h
      simp only [paramsLoopM] at h
      split at h
      · simp only [POut.ok.injEq] at h
        obtain ⟨rfl, rfl⟩ := h
        exact ⟨id, ⟨[], by simp⟩, ⟨[], by simp⟩⟩
      · split at h
        · simp only [POut.ok.injEq] at h
          obtain ⟨rfl, rfl⟩ := h
          exact ⟨id, ⟨[], by simp⟩, ⟨[], by simp⟩⟩
        · refine (tp_bind (tp_of_fixed consume_digitP_fixed) fun dig => ?_) _ a s' h
          cases dig with
          | some m =>
            intro s1 b s1' h1
            dsimp only at h1
            split at h1
            · exact ihParamsLoop _ s1 b s1' h1
            · exact absurd h1 (by simp)
          | none =>
            intro s1 b s1' h1
            dsimp only [bindP] at h1
            split at h1
            case _ pt s2 heq =>
              obtain ⟨hi1, ⟨u1, hu1⟩, ⟨v1, hv1⟩⟩ := ihVar scEmpty s1 pt s2 heq
              split at h1
              · obtain ⟨hi3, ⟨u3, hu3⟩, ⟨v3, hv3⟩⟩ := ihParamsLoop (acc ++ [pt]) _ b s1' h1
                obtain ⟨hmI, ⟨vm, hmV⟩, hmN, _⟩ := memorize_type_spec pt s2
                refine ⟨fun hs => hi3 (hmI (hi1 hs)), ⟨u1 ++ u3, ?_⟩, ⟨v1 ++ (vm ++ v3), ?_⟩⟩
                · rw [hu3, hmN, hu1]
                  simp [List.append_assoc]
                · rw [hv3, hmV, hv1]
                  simp [List.append_assoc]
              · obtain ⟨hi3, ⟨u3, hu3⟩, ⟨v3, hv3⟩⟩ := ihParamsLoop (acc ++ [pt]) _ b s1' h1
                refine ⟨fun hs => hi3 (hi1 hs), ⟨u1 ++ u3, ?_⟩, ⟨v1 ++ v3, ?_⟩⟩
                · rw [hu3, hu1]
                  simp [List.append_assoc]
                · rw [hv3, hv1]
                  simp [List.append_assoc]
            case _ => exact absurd h1 (by simp)
            case _ => exact absurd h1 (by simp)
            case _ => exact absurd h1 (by simp)
    -- read_paramsM
    · simp only [read_paramsM]
      refine tp_bind (ihParamsLoop []) fun params => ?_
      refine tp_bind (tp_of_fixed (consumeP_fixed _)) fun z => ?_
      refine tp_ite (tp_pure _) ?_
      intro s a s' h
      dsimp only at h
      split at h
      · simp only [POut.ok.injEq] at h
        obtain ⟨rfl, rfl⟩ := h
        exact ⟨id, ⟨[], by simp⟩, ⟨[], by simp⟩⟩
      · exact (tp_bind (tp_of_fixed (expectP_fixed _)) fun _ => tp_pure _) s a s' h
    -- read_func_paramsM
    · simp only [read_func_paramsM]
      refine tp_bind (tp_of_fixed (consumeP_fixed _)) fun x => ?_
      refine tp_bind (tp_ite (tp_pure _) ihParams) fun params => ?_
      exact tp_bind (tp_of_fixed (expectP_fixed _)) fun _ => tp_pure _


/-- A backreference digit `d` with index `d - 48` at or beyond the
current size of `memorized_names` makes `read_nested_name` fail. -/
theorem read_nested_name_backref_err (fuel : Nat) (s : PState) (d : Nat) (rest : List Nat)
    (hin : s.input = d :: rest) (hd : isDigitByte d = true) (hlen : s.names.length ≤ d - 48) :
    read_nested_nameM (fuel + 1) s = .err "name reference too large" := by
  have hnot : ¬ (d - 48 < s.names.length) := by omega
  simp only [read_nested_nameM, bindP, consume_digitP, hin, hd, if_true]
  exact dif_neg hnot

/-- The same for `read_unqualified_name`. -/
theorem read_unqualified_name_backref_err (fuel : Nat) (fn : Bool) (s : PState) (d : Nat)
    (rest : List Nat) (hin : s.input = d :: rest) (hd : isDigitByte d = true)
    (hlen : s.names.length ≤ d - 48) :
    read_unqualified_nameM (fuel + 1) fn s = .err "name reference too large" := by
  have hnot : ¬ (d - 48 < s.names.length) := by omega
  simp only [read_unqualified_nameM, bindP, consume_digitP, hin, hd, if_true]
  exact dif_neg hnot

/-- A backreference digit at or beyond the size of `memorized_types`
makes `read_var_type` fail. -/
theorem read_var_type_backref_err (fuel : Nat) (sc : Nat) (s : PState) (d : Nat)
    (rest : List Nat) (hin : s.input = d :: rest) (hd : isDigitByte d = true)
    (hlen : s.types.length ≤ d - 48) :
    read_var_typeM (fuel + 2) sc s = .err "invalid backreference" := by
  have hb : 48 ≤ d ∧ d ≤ 57 := by
    simpa [isDigitByte, Bool.and_eq_true, decide_eq_true_eq] using hd
  have h87 : ((87 : Nat) == d) = false := beq_eq_false_iff_ne.mpr (by omega)
  have h65 : ((65 : Nat) == d) = false := beq_eq_false_iff_ne.mpr (by omega)
  have h80 : ((80 : Nat) == d) = false := beq_eq_false_iff_ne.mpr (by omega)
  have h36 : ((36 : Nat) == d) = false := beq_eq_false_iff_ne.mpr (by omega)
  have h63 : ((63 : Nat) == d) = false := beq_eq_false_iff_ne.mpr (by omega)
  have hnot : ¬ (d - 48 < s.types.length) := by omega
  simp only [read_var_typeM, read_var_type_tailM, bindP, consumeP, consume_digitP,
             List.isPrefixOf, hin, hd, h87, h65, h80, h36, h63, Bool.false_and,
             Bool.false_eq_true, if_false, if_true]
  exact dif_neg hnot

/-- Claim C3: throughout any parse both backreference tables hold at
most 10 entries, no two entries of a table are structurally equal
(`structEq*`, the derived `PartialEq`), tables are only ever extended at
the end (first-seen order) or restored to a saved older value, and a
backreference digit whose index is at or beyond the current table size
is a parse error. -/
theorem c3_backref_table_invariants :
    (∀ fuel, TablePreserving (parseM fuel)) ∧
    (∀ fuel, TablePreserving (read_nested_nameM fuel)) ∧
    (∀ fuel fn, TablePreserving (read_unqualified_nameM fuel fn)) ∧
    (∀ fuel, TablePreserving (read_template_nameM fuel)) ∧
    (∀ fuel sc, TablePreserving (read_var_typeM fuel sc)) ∧
    (∀ fuel, TablePreserving (read_paramsM fuel)) ∧
    (∀ fuel s d rest, s.input = d :: rest → isDigitByte d = true →
        s.names.length ≤ d - 48 →
        read_nested_nameM (fuel + 1) s = .err "name reference too large") ∧
    (∀ fuel sc s d rest, s.input = d :: rest → isDigitByte d = true →
        s.types.length ≤ d - 48 →
        read_var_typeM (fuel + 2) sc s = .err "invalid backreference") := by
  refine ⟨fun fuel => (knot_tables fuel).1,
          fun fuel => (knot_tables fuel).2.1,
          fun fuel => (knot_tables fuel).2.2.1,
          fun fuel => (knot_tables fuel).2.2.2.1,
          fun fuel => (knot_tables fuel).2.2.2.2.2.2.2.2.2.1,
          fun fuel => (knot_tables fuel).2.2.2.2.2.2.2.2.2.2.2.2.2.2.2.1,
          read_nested_name_backref_err,
          read_var_type_backref_err⟩

/-- Witness for C3: the invariant of the empty initial tables transfers
along a complete concrete parse of `?x@@3HA`, and a backreference `5`
against an empty name table is rejected. -/
theorem c3_backref_table_invariants_witness :
    tablesInv { input := [65], names := [Name.NonTemplate [120]], types := [] } ∧
    read_nested_nameM 1 { input := [53], names := [], types := [] } =
      .err "name reference too large" := by
  constructor
  · exact (c3_backref_table_invariants.1 50
      { input := strBytes "?x@@3HA", names := [], types := [] }
      (ParseResult.mk (Symbol.mk (Name.NonTemplate [120]) (NameSequence.mk [])) (Typ.Int 0))
      { input := [65], names := [Name.NonTemplate [120]], types := [] } rfl).1
      ⟨by simp, List.Pairwise.nil, by simp, List.Pairwise.nil⟩
  · exact c3_backref_table_invariants.2.2.2.2.2.2.1 0
      { input := [53], names := [], types := [] } 53 [] rfl rfl (by simp)


/-! ### Claim C2: `read_number` -/

/-- The pure (unwrapped) value of a hex-digit run, accumulated
most-significant-digit-first. -/
def hexValue (ds : List Nat) : Int :=
  ds.foldl (fun (a : Int) (c : Nat) => 16 * a + ((c : Int) - 65)) 0

theorem wrap32_congr (a b : Int) (h : a % 4294967296 = b % 4294967296) :
    wrap32 a = wrap32 b := by
  unfold wrap32
  omega

theorem wrap32_mod (a : Int) : wrap32 a % 4294967296 = a % 4294967296 := by
  unfold wrap32
  omega

theorem wrap32_zero : wrap32 0 = 0 := by decide

theorem wrap32_step (a v : Int) : wrap32 (16 * wrap32 a + v) = wrap32 (16 * a + v) := by
  refine wrap32_congr _ _ ?_
  have := wrap32_mod a
  omega

theorem wrap32_neg_wrap (a : Int) : wrap32 (-(wrap32 a)) = wrap32 (-a) := by
  refine wrap32_congr _ _ ?_
  have := wrap32_mod a
  omega

theorem isDigitByte_false_of_ge (b : Nat) (h : 58 ≤ b) : isDigitByte b = false := by
  simp only [isDigitByte, Bool.and_eq_false_iff, decide_eq_false_iff_not]
  right
  omega

theorem readNumLoop_hexRun (ds : List Nat) (hds : ∀ c ∈ ds, 65 ≤ c ∧ c ≤ 80) (a : Int)
    (rest : List Nat) :
    readNumLoop (wrap32 a) (ds ++ 64 :: rest) =
      .ok (wrap32 (ds.foldl (fun (x : Int) (c : Nat) => 16 * x + ((c : Int) - 65)) a), rest) := by
  induction ds generalizing a with
  | nil => simp [readNumLoop]
  | cons c ds ih =>
    obtain ⟨hc1, hc2⟩ := hds c (by simp)
    have hc64 : c ≠ 64 := by omega
    have hds' : ∀ x ∈ ds, 65 ≤ x ∧ x ≤ 80 := fun x hx => hds x (by simp [hx])
    rw [List.cons_append, List.foldl_cons]
    show (if c = 64 then Except.ok (wrap32 a, ds ++ 64 :: rest)
          else if 65 ≤ c ∧ c ≤ 80 then
            readNumLoop (wrap32 (16 * wrap32 a + ((c : Int) - 65))) (ds ++ 64 :: rest)
          else .error "bad number") = _
    rw [if_neg hc64, if_pos (⟨hc1, hc2⟩ : 65 ≤ c ∧ c ≤ 80), wrap32_step,
        ih hds' (16 * a + ((c : Int) - 65))]

theorem readNumLoop_badByte (ds : List Nat) (hds : ∀ c ∈ ds, 65 ≤ c ∧ c ≤ 80) (b : Nat)
    (hb : ¬(65 ≤ b ∧ b ≤ 80)) (hb64 : b ≠ 64) (a : Int) (rest : List Nat) :
    readNumLoop a (ds ++ b :: rest) = .error "bad number" := by
  induction ds generalizing a with
  | nil => simp [readNumLoop, if_neg hb64, hb]
  | cons c ds ih =>
    obtain ⟨hc1, hc2⟩ := hds c (by simp)
    have hc64 : c ≠ 64 := by omega
    have hds' : ∀ x ∈ ds, 65 ≤ x ∧ x ≤ 80 := fun x hx => hds x (by simp [hx])
    rw [List.cons_append]
    show (if c = 64 then Except.ok (a, ds ++ b :: rest)
          else if 65 ≤ c ∧ c ≤ 80 then
            readNumLoop (wrap32 (16 * a + ((c : Int) - 65))) (ds ++ b :: rest)
          else .error "bad number") = _
    rw [if_neg hc64, if_pos (⟨hc1, hc2⟩ : 65 ≤ c ∧ c ≤ 80)]
    exact ih hds' _

theorem readNumLoop_noTerm (ds : List Nat) (hds : ∀ c ∈ ds, 65 ≤ c ∧ c ≤ 80) (a : Int) :
    readNumLoop a ds = .error "bad number" := by
  induction ds generalizing a with
  | nil => simp [readNumLoop]
  | cons c ds ih =>
    obtain ⟨hc1, hc2⟩ := hds c (by simp)
    have hc64 : c ≠ 64 := by omega
    have hds' : ∀ x ∈ ds, 65 ≤ x ∧ x ≤ 80 := fun x hx => hds x (by simp [hx])
    show (if c = 64 then Except.ok (a, ds)
          else if 65 ≤ c ∧ c ≤ 80 then
            readNumLoop (wrap32 (16 * a + ((c : Int) - 65))) ds
          else .error "bad number") = _
    rw [if_neg hc64, if_pos (⟨hc1, hc2⟩ : 65 ≤ c ∧ c ≤ 80)]
    exact ih hds' _

/-- Evaluation of `read_number` when the first byte is neither `?` nor a
decimal digit: it is exactly the hex loop. -/
theorem read_numberP_loopCase (l : List Nat) (nm : List Name) (tm : List Typ)
    (h63 : ∀ c rest, l = c :: rest → c ≠ 63 ∧ isDigitByte c = false) :
    read_numberP ⟨l, nm, tm⟩ =
      match readNumLoop 0 l with
      | .ok (ret, rest) => .ok ret ⟨rest, nm, tm⟩
      | .error e => .err e := by
  cases l with
  | nil => simp [read_numberP, bindP, consumeP, consume_digitP, List.isPrefixOf, readNumLoop]
  | cons c rest =>
    obtain ⟨hc63, hcd⟩ := h63 c rest rfl
    have hb : ((63 : Nat) == c) = false := beq_eq_false_iff_ne.mpr (Ne.symm hc63)
    simp [read_numberP, bindP, consumeP, consume_digitP, List.isPrefixOf, hb, hcd]

/-- Evaluation of `read_number` on a leading `?` whose next byte is not a
decimal digit: the hex loop with the final negation. -/
theorem read_numberP_negLoopCase (l : List Nat) (nm : List Name) (tm : List Typ)
    (hdig : ∀ c rest, l = c :: rest → isDigitByte c = false) :
    read_numberP ⟨63 :: l, nm, tm⟩ =
      match readNumLoop 0 l with
      | .ok (ret, rest) => .ok (wrap32 (-ret)) ⟨rest, nm, tm⟩
      | .error e => .err e := by
  cases l with
  | nil => simp [read_numberP, bindP, consumeP, consume_digitP, List.isPrefixOf, readNumLoop]
  | cons c rest =>
    have hcd := hdig c rest rfl
    simp [read_numberP, bindP, consumeP, consume_digitP, List.isPrefixOf, hcd]

theorem hexRun_head (ds : List Nat) (hds : ∀ c ∈ ds, 65 ≤ c ∧ c ≤ 80) (b : Nat)
    (hnil : ds = [] → b ≠ 63 ∧ isDigitByte b = false) (rest : List Nat) :
    ∀ c r, ds ++ b :: rest = c :: r → c ≠ 63 ∧ isDigitByte c = false := by
  intro c r hcr
  cases ds with
  | nil =>
    simp only [List.nil_append, List.cons.injEq] at hcr
    obtain ⟨rfl, rfl⟩ := hcr
    exact hnil rfl
  | cons x ds' =>
    obtain ⟨h1, h2⟩ := hds x (by simp)
    simp only [List.cons_append, List.cons.injEq] at hcr
    obtain ⟨rfl, rfl⟩ := hcr
    exact ⟨by omega, isDigitByte_false_of_ge _ (by omega)⟩

theorem hexRun_head_digit (ds : List Nat) (hds : ∀ c ∈ ds, 65 ≤ c ∧ c ≤ 80) (b : Nat)
    (hnil : ds = [] → isDigitByte b = false) (rest : List Nat) :
    ∀ c r, ds ++ b :: rest = c :: r → isDigitByte c = false := by
  intro c r hcr
  cases ds with
  | nil =>
    simp only [List.nil_append, List.cons.injEq] at hcr
    obtain ⟨rfl, rfl⟩ := hcr
    exact hnil rfl
  | cons x ds' =>
    obtain ⟨h1, h2⟩ := hds x (by simp)
    simp only [List.cons_append, List.cons.injEq] at hcr
    obtain ⟨rfl, rfl⟩ := hcr
    exact isDigitByte_false_of_ge _ (by omega)

/-- Claim C2: `read_number` decodes the custom integer encoding.  An
optional leading `?` negates; a single decimal digit `d` yields
`(d - 48) + 1`; otherwise a run of hex digits `A`–`P` terminated by `@`
yields the wrapped (`i32`) most-significant-first accumulation
`wrap32 (hexValue ds)`; a byte that is neither a hex digit nor `@`
appearing before the terminator (any byte at all mid-run, e.g. the `5`
of `A5@`; at the start only a byte the digit branch and the sign marker
do not take first), or the input running out before `@`, is a
`bad number` error — with or without the leading `?`. -/
theorem c2_read_number :
    (∀ (d : Nat) rest nm tm, isDigitByte d = true →
        read_numberP ⟨d :: rest, nm, tm⟩ =
          .ok (((d - 48 : Nat) : Int) + 1) ⟨rest, nm, tm⟩) ∧
    (∀ (d : Nat) rest nm tm, isDigitByte d = true →
        read_numberP ⟨63 :: d :: rest, nm, tm⟩ =
          .ok (-(((d - 48 : Nat) : Int) + 1)) ⟨rest, nm, tm⟩) ∧
    (∀ ds rest nm tm, (∀ c ∈ ds, 65 ≤ c ∧ c ≤ 80) →
        read_numberP ⟨ds ++ 64 :: rest, nm, tm⟩ =
          .ok (wrap32 (hexValue ds)) ⟨rest, nm, tm⟩) ∧
    (∀ ds rest nm tm, (∀ c ∈ ds, 65 ≤ c ∧ c ≤ 80) →
        read_numberP ⟨63 :: (ds ++ 64 :: rest), nm, tm⟩ =
          .ok (wrap32 (-(hexValue ds))) ⟨rest, nm, tm⟩) ∧
    (∀ ds b rest nm tm, (∀ c ∈ ds, 65 ≤ c ∧ c ≤ 80) → ¬(65 ≤ b ∧ b ≤ 80) → b ≠ 64 →
        (ds = [] → b ≠ 63 ∧ isDigitByte b = false) →
        read_numberP ⟨ds ++ b :: rest, nm, tm⟩ = .err "bad number") ∧
    (∀ ds b rest nm tm, (∀ c ∈ ds, 65 ≤ c ∧ c ≤ 80) → ¬(65 ≤ b ∧ b ≤ 80) → b ≠ 64 →
        (ds = [] → isDigitByte b = false) →
        read_numberP ⟨63 :: (ds ++ b :: rest), nm, tm⟩ = .err "bad number") ∧
    (∀ ds nm tm, (∀ c ∈ ds, 65 ≤ c ∧ c ≤ 80) →
        read_numberP ⟨ds, nm, tm⟩ = .err "bad number") ∧
    (∀ ds nm tm, (∀ c ∈ ds, 65 ≤ c ∧ c ≤ 80) →
        read_numberP ⟨63 :: ds, nm, tm⟩ = .err "bad number") := by
  have hexHead64 : ∀ (ds : List Nat), (∀ c ∈ ds, 65 ≤ c ∧ c ≤ 80) → ∀ (rest : List Nat),
      ∀ c r, ds ++ 64 :: rest = c :: r → c ≠ 63 ∧ isDigitByte c = false := by
    intro ds hds rest c r hcr
    cases ds with
    | nil =>
      simp only [List.nil_append, List.cons.injEq] at hcr
      obtain ⟨rfl, rfl⟩ := hcr
      exact ⟨by omega, by simp [isDigitByte]⟩
    | cons x ds' =>
      obtain ⟨h1, h2⟩ := hds x (by simp)
      simp only [List.cons_append, List.cons.injEq] at hcr
      obtain ⟨rfl, rfl⟩ := hcr
      exact ⟨by omega, isDigitByte_false_of_ge _ (by omega)⟩
  have hexHeadOnly : ∀ (ds : List Nat), (∀ c ∈ ds, 65 ≤ c ∧ c ≤ 80) →
      ∀ c r, ds = c :: r → c ≠ 63 ∧ isDigitByte c = false := by
    intro ds hds c r hcr
    subst hcr
    obtain ⟨h1, h2⟩ := hds c (by simp)
    exact ⟨by omega, isDigitByte_false_of_ge _ (by omega)⟩
  refine ⟨?_, ?_, ?_, ?_, ?_, ?_, ?_, ?_⟩
  · intro d rest nm tm hd
    have h63 : ((63 : Nat) == d) = false := beq_eq_false_iff_ne.mpr (by
      have : 48 ≤ d ∧ d ≤ 57 := by simpa [isDigitByte] using hd
      omega)
    simp [read_numberP, bindP, consumeP, consume_digitP, List.isPrefixOf, h63, hd, pureP]
  · intro d rest nm tm hd
    simp only [read_numberP, bindP, consumeP, consume_digitP, List.isPrefixOf, hd, pureP]
    simp [hd]
    rfl
  · intro ds rest nm tm hds
    rw [read_numberP_loopCase _ _ _ (hexHead64 ds hds rest)]
    rw [show (0 : Int) = wrap32 0 from wrap32_zero.symm, readNumLoop_hexRun ds hds 0 rest]
    rfl
  · intro ds rest nm tm hds
    rw [read_numberP_negLoopCase _ _ _ (fun c r hcr => (hexHead64 ds hds rest c r hcr).2)]
    rw [show (0 : Int) = wrap32 0 from wrap32_zero.symm, readNumLoop_hexRun ds hds 0 rest]
    simp only [wrap32_neg_wrap]
    rfl
  · intro ds b rest nm tm hds hb hb64 hnil
    rw [read_numberP_loopCase _ _ _ (hexRun_head ds hds b hnil rest)]
    rw [readNumLoop_badByte ds hds b hb hb64 0 rest]
  · intro ds b rest nm tm hds hb hb64 hnil
    rw [read_numberP_negLoopCase _ _ _ (hexRun_head_digit ds hds b hnil rest)]
    rw [readNumLoop_badByte ds hds b hb hb64 0 rest]
  · intro ds nm tm hds
    rw [read_numberP_loopCase _ _ _ (hexHeadOnly ds hds)]
    rw [readNumLoop_noTerm ds hds 0]
  · intro ds nm tm hds
    rw [read_numberP_negLoopCase _ _ _ (fun c r hcr => (hexHeadOnly ds hds c r hcr).2)]
    rw [readNumLoop_noTerm ds hds 0]


/-- Witness for C2 at concrete inputs: `"3"`, `"?3"`, `"BC@"`, `"?BC@"`,
`"A5@"` (a decimal digit mid-run), `"?Z"`, `"BC"`, `"?AB"`. -/
theorem c2_read_number_witness :
    read_numberP { input := [51, 65], names := [], types := [] } =
      .ok 4 { input := [65], names := [], types := [] } ∧
    read_numberP { input := [63, 51], names := [], types := [] } =
      .ok (-4) { input := [], names := [], types := [] } ∧
    read_numberP { input := [66, 67, 64, 33], names := [], types := [] } =
      .ok 18 { input := [33], names := [], types := [] } ∧
    read_numberP { input := [63, 66, 67, 64], names := [], types := [] } =
      .ok (-18) { input := [], names := [], types := [] } ∧
    read_numberP { input := [65, 53, 64], names := [], types := [] } = .err "bad number" ∧
    read_numberP { input := [63, 90], names := [], types := [] } = .err "bad number" ∧
    read_numberP { input := [66, 67], names := [], types := [] } = .err "bad number" ∧
    read_numberP { input := [63, 65, 66], names := [], types := [] } = .err "bad number" := by
  refine ⟨?_, ?_, ?_, ?_, ?_, ?_, ?_, ?_⟩
  · exact c2_read_number.1 51 [65] [] [] rfl
  · exact c2_read_number.2.1 51 [] [] [] rfl
  · exact c2_read_number.2.2.1 [66, 67] [33] [] [] (by decide)
  · exact c2_read_number.2.2.2.1 [66, 67] [] [] [] (by decide)
  · exact c2_read_number.2.2.2.2.1 [65] 53 [64] [] [] (by decide) (by decide) (by decide)
      (by decide)
  · exact c2_read_number.2.2.2.2.2.1 [] 90 [] [] [] (by decide) (by decide) (by decide)
      (by decide)
  · exact c2_read_number.2.2.2.2.2.2.1 [66, 67] [] [] (by decide)
  · exact c2_read_number.2.2.2.2.2.2.2 [65, 66] [] [] (by decide)

/-! ### Claim C4: template names get an isolated backreference scope -/

/-- Claim C4: `read_template_name` runs its base name and parameter list
against fresh empty tables and restores the saved tables afterwards.
Hence the computation (result name and consumed input) depends only on
the input — never on the caller's tables, so an index inside the
template never resolves to an entry memorized outside — and both the
caller's tables survive unchanged, so nothing memorized inside leaks
out. -/
theorem c4_template_scope_isolation (fuel : Nat) (s1 s2 : PState) (hin : s1.input = s2.input)
    (nm : Name) (s1' : PState) (h : read_template_nameM fuel s1 = .ok nm s1') :
    ∃ s2', read_template_nameM fuel s2 = .ok nm s2' ∧ s2'.input = s1'.input ∧
      s1'.names = s1.names ∧ s1'.types = s1.types ∧
      s2'.names = s2.names ∧ s2'.types = s2.types := by
  cases fuel with
  | zero => exact absurd h (by simp [read_template_nameM])
  | succ n =>
    simp only [read_template_nameM, bindP] at h ⊢
    rw [hin] at h
    split at h
    case _ nmu su hequ =>
      split at h
      case _ ps sp heqp =>
        simp only [POut.ok.injEq] at h
        obtain ⟨rfl, rfl⟩ := h
        exact ⟨{ sp with names := s2.names, types := s2.types }, rfl, rfl, rfl, rfl, rfl, rfl⟩
      case _ => exact absurd h (by simp)
      case _ => exact absurd h (by simp)
      case _ => exact absurd h (by simp)
    case _ => exact absurd h (by simp)
    case _ => exact absurd h (by simp)
    case _ => exact absurd h (by simp)

/-- Witness for C4: the template body `abc@H@` parsed from two states
with the same input but different tables gives the same name, and both
states keep their own tables. -/
theorem c4_template_scope_isolation_witness :
    ∃ s2', read_template_nameM 30
        { input := strBytes "abc@H@", names := [], types := [] } = .ok
          (Name.Template (Name.NonTemplate [97, 98, 99]) (Params.mk [Typ.Int scEmpty])) s2' ∧
      s2'.input = [] ∧ s2'.names = [] ∧ s2'.types = [] := by
  have h := c4_template_scope_isolation 30
    { input := strBytes "abc@H@", names := [Name.NonTemplate [122]], types := [Typ.Uint scEmpty] }
    { input := strBytes "abc@H@", names := [], types := [] } rfl
    (Name.Template (Name.NonTemplate [97, 98, 99]) (Params.mk [Typ.Int scEmpty]))
    { input := [], names := [Name.NonTemplate [122]], types := [Typ.Uint scEmpty] } rfl
  obtain ⟨s2', h1, h2, h3, h4, h5, h6⟩ := h
  exact ⟨s2', h1, h2, h5, h6⟩

/-! ### Claim C9: the `??` nested parse shares the parser state -/

/-- Amended C9: the `??` branch of `read_nested_name` calls `parse` on
the same parser state (only the first `?` consumed): the caller's
tables flow into the nested parse, and whatever the nested parse
memorizes flows back out through the shared state. -/
theorem c9_nested_parse_shares_tables (fuel : Nat) (s : PState) (rest : List Nat)
    (hin : s.input = 63 :: 63 :: rest) :
    read_nested_nameM (fuel + 1) s =
      bindP (parseM fuel) (fun r => pureP (Name.ParsedName r)) { s with input := 63 :: rest } := by
  simp [read_nested_nameM, bindP, consume_digitP, consumeP, List.isPrefixOf, hin, isDigitByte]

/-- Witness for C9's amended statement at `??b@@YAXXZ` with a non-empty
outer name table. -/
theorem c9_nested_parse_shares_tables_witness :
    read_nested_nameM 41
        { input := strBytes "??b@@YAXXZ", names := [Name.NonTemplate [97]], types := [] } =
      bindP (parseM 40) (fun r => pureP (Name.ParsedName r))
        { input := strBytes "?b@@YAXXZ", names := [Name.NonTemplate [97]], types := [] } :=
  c9_nested_parse_shares_tables 40
    { input := strBytes "??b@@YAXXZ", names := [Name.NonTemplate [97]], types := [] }
    (strBytes "b@@YAXXZ") rfl

/-- Counterexample for C9 as stated: in `?a@??b@@YAXXZ1@3HA` the name
`b` is memorized by the *nested* parse (spawned at the `??`), and the
outer scope's backreference digit `1` resolves to it; the final table
still holds `b` after the nested parse closed.  With disjoint tables the
reference `1` would be out of range — as the second conjunct shows for
the same suffix against the outer-only table. -/
theorem c9_counterexample :
    parseBytes 80 (strBytes "?a@??b@@YAXXZ1@3HA") =
      .ok (ParseResult.mk
            (Symbol.mk (Name.NonTemplate [97])
              (NameSequence.mk
                [Name.ParsedName
                   (ParseResult.mk
                     (Symbol.mk (Name.NonTemplate [98]) (NameSequence.mk []))
                     (Typ.NonMemberFunction CallingConv.Cdecl (Params.mk [Typ.Void scEmpty])
                       scEmpty (Typ.Void scEmpty))),
                 Name.NonTemplate [98]]))
            (Typ.Int scEmpty))
        { input := [65], names := [Name.NonTemplate [97], Name.NonTemplate [98]], types := [] } ∧
    read_nested_nameM 5
        { input := strBytes "1@3HA", names := [Name.NonTemplate [97]], types := [] } =
      .err "name reference too large" := by
  exact ⟨rfl, rfl⟩


/-! ### Claim C6: `read_array` / `read_nested_array` -/

/-- `arrShape k t sc`: `t` starts with `k` nested `Typ.Array` wrappers,
every one carrying the storage class `sc`. -/
def arrShape : Nat → Typ → Nat → Prop
  | 0, _, _ => True
  | k + 1, t, sc => ∃ len inner, t = Typ.Array len inner sc ∧ arrShape k inner sc

/-- Counterexample for C6 as stated: on `123$$CBH` (two dimensions,
lengths 3 and 4, `$$CB` = const, element `int`) the decoded `const`
qualifier is stamped on *every* `Typ.Array` wrapper — the outermost
included — while the element type keeps the empty storage class; the
claim predicted the qualifier on the element only. -/
theorem c6_counterexample :
    read_arrayM 20 { input := strBytes "123$$CBH", names := [], types := [] } =
      .ok (Typ.Array 3 (Typ.Array 4 (Typ.Int scEmpty) scCONST) scCONST)
        { input := [], names := [], types := [] } ∧
    Typ.Array 3 (Typ.Array 4 (Typ.Int scEmpty) scCONST) scCONST ≠
      Typ.Array 3 (Typ.Array 4 (Typ.Int scCONST) scEmpty) scEmpty := by
  refine ⟨rfl, ?_⟩
  simp [scEmpty, scCONST]

/-- Amended C6: `read_array` reads the dimension count and fails on a
non-positive one; on success the result carries one `Typ.Array` wrapper
per dimension, each length read in order outside-in, and the storage
class decoded at the innermost level (optional `$$C{A,B,C,D}`) is
attached to every wrapper, not to the element. -/
theorem c6_read_array_amended :
    (∀ fuel s d s1, read_numberP s = .ok d s1 → d ≤ 0 →
        read_arrayM (fuel + 1) s = .err "invalid array dimension") ∧
    (∀ fuel d s t sc s', 0 < d → read_nested_arrayM fuel d s = .ok (t, sc) s' →
        arrShape d.toNat t sc) ∧
    (∀ fuel s t s', read_arrayM (fuel + 1) s = .ok t s' →
        ∃ d s1, read_numberP s = .ok d s1 ∧ 0 < d ∧ ∃ sc, arrShape d.toNat t sc) := by
  have key : ∀ fuel d s t sc s', 0 < d → read_nested_arrayM fuel d s = .ok (t, sc) s' →
      arrShape d.toNat t sc := by
    intro fuel
    induction fuel with
    | zero => intro d s t sc s' hd h; exact absurd h (by simp [read_nested_arrayM])
    | succ n ih =>
      intro d s t sc s' hd h
      simp only [read_nested_arrayM, if_pos hd, bindP] at h
      split at h
      case _ len s1 heq1 =>
        split at h
        case _ pr s2 heq2 =>
          obtain ⟨t2, sc2⟩ := pr
          simp only [pureP, POut.ok.injEq, Prod.mk.injEq] at h
          obtain ⟨⟨rfl, rfl⟩, rfl⟩ := h
          have hk : d.toNat = (d - 1).toNat + 1 := by omega
          rw [hk]
          refine ⟨len, t2, rfl, ?_⟩
          by_cases hd1 : 0 < d - 1
          · exact ih (d - 1) s1 t2 _ s2 hd1 heq2
          · have hz : (d - 1).toNat = 0 := by omega
            rw [hz]
            trivial
        case _ => exact absurd h (by simp)
        case _ => exact absurd h (by simp)
        case _ => exact absurd h (by simp)
      case _ => exact absurd h (by simp)
      case _ => exact absurd h (by simp)
      case _ => exact absurd h (by simp)
  refine ⟨?_, key, ?_⟩
  · intro fuel s d s1 h hd
    simp [read_arrayM, bindP, h, if_pos hd, errP]
  · intro fuel s t s' h
    simp only [read_arrayM, bindP] at h
    split at h
    case _ d s1 heq =>
      split at h
      · exact absurd h (by simp [errP])
      case _ hdpos =>
        simp only [bindP] at h
        split at h
        case _ pr s2 heq2 =>
          obtain ⟨t2, sc2⟩ := pr
          simp only [pureP, POut.ok.injEq] at h
          obtain ⟨rfl, rfl⟩ := h
          have hd : 0 < d := by omega
          exact ⟨d, s1, heq, hd, sc2, key fuel d s1 t2 sc2 s2 hd heq2⟩
        case _ => exact absurd h (by simp)
        case _ => exact absurd h (by simp)
        case _ => exact absurd h (by simp)
    case _ => exact absurd h (by simp)
    case _ => exact absurd h (by simp)
    case _ => exact absurd h (by simp)

/-- Witness for C6's amended statement: a negated dimension (`?1…`)
fails, and the two-dimensional parse of `23$$CBH` has the shape with the
qualifier on both wrappers. -/
theorem c6_read_array_amended_witness :
    read_arrayM 10 { input := strBytes "?1AB", names := [], types := [] } =
      .err "invalid array dimension" ∧
    arrShape 2 (Typ.Array 3 (Typ.Array 4 (Typ.Int scEmpty) scCONST) scCONST) scCONST := by
  constructor
  · exact c6_read_array_amended.1 9
      { input := strBytes "?1AB", names := [], types := [] } (-2)
      { input := strBytes "AB", names := [], types := [] } rfl (by decide)
  · exact c6_read_array_amended.2.1 20 2
      { input := strBytes "23$$CBH", names := [], types := [] }
      (Typ.Array 3 (Typ.Array 4 (Typ.Int scEmpty) scCONST) scCONST) scCONST
      { input := [], names := [], types := [] } (by decide) rfl

/-! ### Claim C7: the space-insertion rules of the serializer -/

/-- Counterexample for C7 as stated: with `LotsOfWhitespace` and the
buffer ending in `*` (42), `write_space_pre` — the space-insertion point
used by `write_name` — does *not* insert a space, while `write_space`
does; so the `*`-rule does not hold at every insertion point. -/
theorem c7_counterexample :
    write_space_pre DemangleFlags.LotsOfWhitespace [42] = [42] ∧
    write_space DemangleFlags.LotsOfWhitespace [42] = [42, 32] ∧
    write_space_pre DemangleFlags.LotsOfWhitespace [42] ≠ [42, 32] := by
  refine ⟨rfl, rfl, ?_⟩
  decide

/-- Amended C7: a separating space is decided against the literal last
byte of the output buffer; `write_space` triggers on an alphabetic byte
(both modes) and additionally on `*`, `&`, `>` in `LotsOfWhitespace`;
`write_space_pre` (used before names) triggers on an alphabetic byte and
additionally on `&`, `>` — but not `*` — in `LotsOfWhitespace`; an empty
buffer never gets a space. -/
theorem c7_write_space_amended :
    (∀ fl w, w.getLast? = none → write_space fl w = w ∧ write_space_pre fl w = w) ∧
    (∀ w c, w.getLast? = some c →
      (write_space DemangleFlags.LessWhitespace w = w ++ [32] ↔ isAsciiAlphabetic c = true) ∧
      (write_space DemangleFlags.LotsOfWhitespace w = w ++ [32] ↔
        (isAsciiAlphabetic c = true ∨ c = 42 ∨ c = 38 ∨ c = 62)) ∧
      (write_space_pre DemangleFlags.LessWhitespace w = w ++ [32] ↔
        isAsciiAlphabetic c = true) ∧
      (write_space_pre DemangleFlags.LotsOfWhitespace w = w ++ [32] ↔
        (isAsciiAlphabetic c = true ∨ c = 38 ∨ c = 62))) := by
  have hne : ∀ w : List Nat, w ≠ w ++ [32] := by
    intro w hw
    have := congrArg List.length hw
    simp at this
  constructor
  · intro fl w h
    constructor
    · unfold write_space
      rw [h]
    · unfold write_space_pre
      rw [h]
  · intro w c h
    refine ⟨?_, ?_, ?_, ?_⟩
    · unfold write_space
      rw [h]
      show (if isAsciiAlphabetic c = true then w ++ [32] else w) = w ++ [32] ↔ _
      by_cases hc : isAsciiAlphabetic c = true
      · simp [hc]
      · simp [hc, hne w]
    · unfold write_space
      rw [h]
      show (if (isAsciiAlphabetic c || decide (c = 42) || decide (c = 38) ||
              decide (c = 62)) = true then w ++ [32] else w) = w ++ [32] ↔ _
      by_cases hc : isAsciiAlphabetic c = true ∨ c = 42 ∨ c = 38 ∨ c = 62
      · rw [if_pos (by simp only [Bool.or_eq_true, decide_eq_true_eq]; tauto)]
        simp [hc]
      · rw [if_neg (by simp only [Bool.or_eq_true, decide_eq_true_eq]; tauto)]
        constructor
        · intro hw
          exact absurd hw (hne w)
        · intro hor
          exact absurd hor hc
    · unfold write_space_pre
      rw [h]
      show (if isAsciiAlphabetic c = true then w ++ [32] else w) = w ++ [32] ↔ _
      by_cases hc : isAsciiAlphabetic c = true
      · simp [hc]
      · simp [hc, hne w]
    · unfold write_space_pre
      rw [h]
      show (if (isAsciiAlphabetic c || decide (c = 38) ||
              decide (c = 62)) = true then w ++ [32] else w) = w ++ [32] ↔ _
      by_cases hc : isAsciiAlphabetic c = true ∨ c = 38 ∨ c = 62
      · rw [if_pos (by simp only [Bool.or_eq_true, decide_eq_true_eq]; tauto)]
        simp [hc]
      · rw [if_neg (by simp only [Bool.or_eq_true, decide_eq_true_eq]; tauto)]
        constructor
        · intro hw
          exact absurd hw (hne w)
        · intro hor
          exact absurd hor hc

/-- Witness for C7's amended statement: buffers ending in `t`, `*`,
`(` and the empty buffer. -/
theorem c7_write_space_amended_witness :
    write_space DemangleFlags.LotsOfWhitespace [] = [] ∧
    write_space DemangleFlags.LotsOfWhitespace [105, 110, 116] = [105, 110, 116, 32] ∧
    write_space DemangleFlags.LotsOfWhitespace [42] = [42, 32] ∧
    write_space_pre DemangleFlags.LessWhitespace [105] = [105, 32] := by
  refine ⟨?_, ?_, ?_, ?_⟩
  · exact (c7_write_space_amended.1 DemangleFlags.LotsOfWhitespace [] rfl).1
  · exact ((c7_write_space_amended.2 [105, 110, 116] 116 rfl).2.1).mpr (by decide)
  · exact ((c7_write_space_amended.2 [42] 42 rfl).2.1).mpr (by decide)
  · exact ((c7_write_space_amended.2 [105] 105 rfl).2.2.1).mpr (by decide)

/-! ### Claim C8: unrecognized bytes at the qualifier position -/

/-- Counterexample for C8 as stated: in `??_7nsI@@6X@@` the byte at the
access-qualifier position after the vftable discriminator `6` is `X`,
not one of `A`/`B`/`C`/`D`, yet the parse *succeeds* (with the empty
storage class) instead of failing with an unrecognized-qualifier
error. -/
theorem c8_counterexample :
    parseBytes 60 (strBytes "??_7nsI@@6X@@") =
      .ok (ParseResult.mk
            (Symbol.mk (Name.Operator "`vftable'")
              (NameSequence.mk [Name.NonTemplate [110, 115, 73]]))
            (Typ.CXXVFTable (NameSequence.mk [Name.NonTemplate [88]]) scEmpty))
        { input := [], names := [Name.NonTemplate [110, 115, 73], Name.NonTemplate [88]],
          types := [] } := by
  rfl

/-- Amended C8: when the next byte at the qualifier position is not one
of `A`/`B`/`C`/`D` (65–68) — or the input is exhausted — `read_qualifier`
consumes nothing and returns the empty storage class; it has no error
path.  (The unrecognized-qualifier errors of the error taxonomy arise
in `read_storage_class_for_return` and the `$$C` arm of
`read_nested_array`, not here.) -/
theorem c8_read_qualifier_amended :
    (∀ s b rest, s.input = b :: rest → b ∉ ([65, 66, 67, 68] : List Nat) →
        read_qualifierP s = .ok scEmpty s) ∧
    (∀ s, s.input = [] → read_qualifierP s = .ok scEmpty s) := by
  constructor
  · intro s b rest hin hb
    simp only [List.mem_cons, List.mem_singleton, not_or] at hb
    obtain ⟨h65, h66, h67, h68⟩ := hb
    simp [read_qualifierP, hin, h65, h66, h67, h68]
  · intro s hin
    simp [read_qualifierP, hin]

/-- Witness for C8's amended statement: the byte `X` (88) and the empty
input. -/
theorem c8_read_qualifier_amended_witness :
    read_qualifierP { input := [88, 64], names := [], types := [] } =
      .ok scEmpty { input := [88, 64], names := [], types := [] } ∧
    read_qualifierP { input := [], names := [], types := [] } =
      .ok scEmpty { input := [], names := [], types := [] } :=
  ⟨c8_read_qualifier_amended.1 { input := [88, 64], names := [], types := [] } 88 [64] rfl
      (by decide),
   c8_read_qualifier_amended.2 { input := [], names := [], types := [] } rfl⟩

/-! ### Claims C1 and C5: the panic in `get` -/

/-- Claim C1 (a code defect): `get` on exhausted input executes
`panic!("Unexpected end of input")` — the process aborts instead of an
`Err` flowing through the `Result` channel.  `?x@@` (a well-formed name
with the type discriminator missing) drives `parse` into that panic. -/
theorem c1_get_aborts_process :
    getP { input := [], names := [], types := [] } = .abort "Unexpected end of input" ∧
    parseBytes 50 (strBytes "?x@@") = .abort "Unexpected end of input" :=
  ⟨rfl, rfl⟩

/-- Claim C5 (a code defect): when the qualified name parses and the input is
then exhausted, the `if let Ok(c) = self.get()` in `parse` panics inside
`get` instead of taking the `Type::None` fallback, which is dead code:
on `?y@@` the parse aborts rather than returning
`Ok` with `Type::None`. -/
theorem c5_missing_discriminator_aborts :
    parseBytes 50 (strBytes "?y@@") = .abort "Unexpected end of input" := rfl

/-! ### Claim C10: trailing input is ignored -/

/-- Claim C10: `parse` does not require the whole input to be consumed:
`?x@@3HA` parses as `int x` leaving the final storage-class byte `A`
unread, and appending arbitrary bytes (`!!` here) yields the same
`Ok` result with the extra bytes also unread. -/
theorem c10_trailing_bytes_ignored :
    parseBytes 50 (strBytes "?x@@3HA") =
      .ok (ParseResult.mk (Symbol.mk (Name.NonTemplate [120]) (NameSequence.mk []))
            (Typ.Int scEmpty))
        { input := [65], names := [Name.NonTemplate [120]], types := [] } ∧
    parseBytes 50 (strBytes "?x@@3HA!!") =
      .ok (ParseResult.mk (Symbol.mk (Name.NonTemplate [120]) (NameSequence.mk []))
            (Typ.Int scEmpty))
        { input := [65, 33, 33], names := [Name.NonTemplate [120]], types := [] } :=
  ⟨rfl, rfl⟩

end MsvcDemangle
